import Mathlib

/- Verification of the streamzio browser-pool and session-lifecycle manager
   (src/server.js) against its natural-language specification.

   The JavaScript source is shallowly embedded.  Module-level mutable state
   becomes an explicit state record `St`; the sequential body of a single
   fetch operation becomes a pure state-transformer driven by an oracle
   record `FetchEnv` supplying the outcome of every external call (browser
   engine, network, display detection, filesystem); the concurrent fragments
   (admission polling, serialized browser initialization) become small-step
   transition relations whose steps correspond to the await boundaries of
   the cooperative JavaScript scheduler. -/

namespace Streamzio

/-! ## Basic string helpers (JavaScript String.prototype.includes) -/

/-- Bool-valued test that the first list is a prefix of the second. -/
def prefL : List Char → List Char → Bool
  | [], _ => true
  | _ :: _, [] => false
  | a :: as, b :: bs => a == b && prefL as bs

/-- Bool-valued test that the pattern occurs as a contiguous sublist. -/
def subL (pat : List Char) : List Char → Bool
  | [] => pat.isEmpty
  | b :: bs => prefL pat (b :: bs) || subL pat bs

/-- Model of JavaScript includes on strings: pattern occurs in s. -/
def strContains (s pat : String) : Bool := subL pat.toList s.toList

/-! ## Configuration constants (src/server.js lines 18-22) -/

def MAX_PAGES_PER_BROWSER : Nat := 10

def MAX_CONCURRENT_REQUESTS : Nat := 2

/-! ## Mode decision at session initialization (src/server.js lines 214-256)

    hasCookies  = fs.existsSync of the persisted cookie store (line 215)
    hasDisplay  = detectDisplay() returned non-null (line 218)
    challengeDetected = the module flag cloudflareChallengeDetected -/

/-- Line 225: useHeadless = !hasDisplay || (hasCookies && !cloudflareChallengeDetected). -/
def useHeadlessMode (hasDisplay hasCookies challengeDetected : Bool) : Bool :=
  !hasDisplay || (hasCookies && !challengeDetected)

/-- Line 256: finalHeadless = !hasDisplay ? true : useHeadless. -/
def finalHeadlessMode (hasDisplay hasCookies challengeDetected : Bool) : Bool :=
  if !hasDisplay then true else useHeadlessMode hasDisplay hasCookies challengeDetected

/-! ## Admission counter arithmetic (src/server.js lines 377-387)

    waitForBrowserSlot ends with activeRequestCount++ and releaseBrowserSlot
    performs activeRequestCount = Math.max(0, activeRequestCount - 1).
    The counter is modelled as an integer so that the clamping of the
    decrement is visible. -/

inductive SlotOp
  | acquire
  | release
  deriving DecidableEq, Repr

/-- Effect of one counter operation on activeRequestCount. -/
def applySlotOp (c : Int) : SlotOp → Int
  | .acquire => c + 1
  | .release => max 0 (c - 1)

/-- Effect of a sequence of counter operations. -/
def runSlotOps (c : Int) (ops : List SlotOp) : Int := ops.foldl applySlotOp c

/-! ## The shared pool state (module-level variables, src/server.js lines 25-36)

    A Browser value models one puppeteer browser instance: `pages` is the
    ordered list of its currently open pages (page ids); index 0 is the
    default page the engine opens at launch.  Closing a page removes it from
    the list; closing the browser empties the list and clears `connected`. -/

structure Browser where
  bid : Nat
  connected : Bool
  pages : List Nat
  headless : Bool
  deriving DecidableEq, Repr

structure St where
  globalBrowser : Option Browser
  browserInitializing : Bool
  browserInitPromiseSet : Bool
  cloudflareChallengeDetected : Bool
  isBrowserHeadless : Bool
  activePages : List Nat
  isShuttingDown : Bool
  activeRequestCount : Nat
  periodicCleanupSet : Bool
  nextId : Nat
  deriving DecidableEq, Repr

/-- page.close() for a page of the current browser: the page is removed
    from the live page list of the browser. -/
def closePageM (s : St) (p : Nat) : St :=
  { s with globalBrowser :=
      s.globalBrowser.map (fun b => { b with pages := b.pages.filter (fun q => !(q == p)) }) }

/-- activePages.delete(page). -/
def untrack (s : St) (p : Nat) : St :=
  { s with activePages := s.activePages.filter (fun q => !(q == p)) }

/-- activePages.add(page): JavaScript Set insertion (kept in insertion order). -/
def track (s : St) (p : Nat) : St :=
  { s with activePages := if s.activePages.contains p then s.activePages else s.activePages ++ [p] }

/-- page.isClosed(): a page is closed when it is not in the live page list
    of the current browser (pages of an already torn-down browser are closed). -/
def pageClosed (s : St) (p : Nat) : Bool :=
  match s.globalBrowser with
  | some b => !(b.pages.contains p)
  | none => true

/-- browser.close(): every page of the browser is destroyed and the
    instance disconnects. -/
def closeBrowserM (s : St) : St :=
  { s with globalBrowser := s.globalBrowser.map (fun b => { b with connected := false, pages := [] }) }

/-- Number of currently open pages (pages of the live browser instance). -/
def openPageCount (s : St) : Nat :=
  match s.globalBrowser with
  | some b => b.pages.length
  | none => 0

/-! ## Graceful shutdown (src/server.js lines 1296-1334) -/

/-- gracefulShutdown: early return when the flag is already set; otherwise
    set the flag, close every tracked page, clear the tracked set, close the
    browser when connected, clear the browser reference and the
    initialization state, and stop the periodic cleanup interval. -/
def gracefulShutdown (s : St) : St :=
  if s.isShuttingDown then s
  else
    let s1 := { s with isShuttingDown := true }
    let s2 := s1.activePages.foldl (fun acc p => closePageM acc p) s1
    let s3 := { s2 with activePages := [] }
    let s4 :=
      match s3.globalBrowser with
      | some b => if b.connected then closeBrowserM s3 else s3
      | none => s3
    { s4 with globalBrowser := none, browserInitializing := false,
              browserInitPromiseSet := false, periodicCleanupSet := false }

/-! ## The fetch operation (src/server.js lines 172-295 and 411-625)

    A single in-flight fetch is modelled sequentially (the claims about the
    fetch operation are per-invocation properties; the cooperative scheduler
    interleaves only at awaits, and no other task mutates the state during a
    solo run).  Every external outcome is drawn from a FetchEnv oracle. -/

structure FetchEnv where
  launchOk : Bool
  relaunchOk : Bool
  hasDisplay : Bool
  hasCookies : Bool
  newPageOk : Bool
  navOk : Bool
  title1 : String
  content1 : String
  relaunchNewPageOk : Bool
  navOk2 : Bool
  title2 : String
  content2 : String
  raceOk : Bool
  h2Ok : Bool
  finalHtml : String
  deriving DecidableEq, Repr

/-- The Cloudflare challenge signature test (src/server.js line 477):
    pageTitle.includes of Just a moment, or pageContent.includes of
    challenges.cloudflare.com. -/
def cfChallengeSig (title content : String) : Bool :=
  strContains title "Just a moment" || strContains content "challenges.cloudflare.com"

/-- The launch half of getBrowser (src/server.js lines 197-294): set the
    in-progress flag and the shared promise, then (per the oracle) either
    launch a browser with the mode computed from display, cookies and the
    challenge flag, or fail, clearing the initialization state.  On success
    browserInitializing clears but the promise reference stays set (line 284).
    The fresh browser opens with one default page.  The Bool in the result
    records whether a launch happened. -/
def launchBrowser (s : St) (env : FetchEnv) (ok : Bool) : St × Except Unit Browser × Bool :=
  let s0 := { s with browserInitializing := true, browserInitPromiseSet := true }
  if ok then
    let fh := finalHeadlessMode env.hasDisplay env.hasCookies s0.cloudflareChallengeDetected
    let b : Browser := { bid := s0.nextId, connected := true, pages := [s0.nextId + 1], headless := fh }
    ({ s0 with globalBrowser := some b, isBrowserHeadless := fh,
               browserInitializing := false, nextId := s0.nextId + 2 }, .ok b, true)
  else
    ({ s0 with browserInitializing := false, browserInitPromiseSet := false }, .error (), false)

/-- getBrowser (src/server.js lines 172-295), solo-caller model.  A live
    connected browser under the page ceiling is returned as is; a connected
    browser with more than MAX_PAGES_PER_BROWSER pages is closed (clearing
    the tracked set, line 182) before a fresh launch; otherwise, when an
    initialization is already in progress the caller would await the shared
    promise (no other task can resolve it in a solo run, modelled as an
    error result), and else a launch is performed. -/
def getBrowserM (s : St) (env : FetchEnv) (ok : Bool) : St × Except Unit Browser × Bool :=
  match s.globalBrowser with
  | some b =>
    if b.connected then
      if MAX_PAGES_PER_BROWSER < b.pages.length then
        launchBrowser { s with globalBrowser := none, activePages := [] } env ok
      else
        (s, .ok b, false)
    else
      if s.browserInitializing && s.browserInitPromiseSet then (s, .error (), false)
      else launchBrowser s env ok
  | none =>
    if s.browserInitializing && s.browserInitPromiseSet then (s, .error (), false)
    else launchBrowser s env ok

/-- browser.newPage(): a fresh page id is appended to the live page list. -/
def newPageM (s : St) : St × Nat :=
  match s.globalBrowser with
  | some b =>
    ({ s with globalBrowser := some { b with pages := b.pages ++ [s.nextId] },
              nextId := s.nextId + 1 }, s.nextId)
  | none => (s, s.nextId)

/-- The defensive cleanup loop of fetchMultiUpPage (src/server.js lines
    428-438): every page of the snapshot except the first is untracked and,
    when still open, closed.  (The source iterates from the tail of the
    snapshot towards index 1; the net effect on the state is order
    independent and is folded here from the front.) -/
def closeAllButFirst (s : St) (ps : List Nat) : St :=
  match ps with
  | [] => s
  | _ :: rest => rest.foldl (fun acc p => closePageM (untrack acc p) p) s

/-- The teardown loop of the challenge-recovery branch (src/server.js lines
    505-515): every page of the browser is untracked and closed. -/
def closeAllPages (s : St) (ps : List Nat) : St :=
  ps.foldl (fun acc p => closePageM (untrack acc p) p) s

/-- Observable events of one fetch operation. -/
structure FetchTrace where
  launches : Nat
  recoveries : Nat
  renavigations : Nat
  openedPages : List Nat
  releases : Nat
  deriving DecidableEq, Repr

def emptyTrace : FetchTrace :=
  { launches := 0, recoveries := 0, renavigations := 0, openedPages := [], releases := 0 }

inductive FetchResult
  | ok (html : String)
  | err
  deriving DecidableEq, Repr

/-- The tail of the fetch after the challenge classification (src/server.js
    lines 574-608): the bounded race between waitForSelector h2 and the
    title-change condition; on success while needsVisibleBrowser is set the
    challenge flag resets (line 586); the fallback fixed delay, the
    best-effort h2 wait and the final page.content() have no state effect. -/
def finishFetch (s : St) (tr : FetchTrace) (pid : Nat) (env : FetchEnv)
    (needsVisible : Bool) : St × FetchTrace × Option Nat × FetchResult :=
  let s1 := if env.raceOk && needsVisible
            then { s with cloudflareChallengeDetected := false } else s
  (s1, tr, some pid, .ok env.finalHtml)

/-- The relaunch half of the recovery branch (src/server.js lines 531-566):
    a second getBrowser call (the pool state was cleared, so it launches,
    now with the challenge flag set), the connectivity re-check, a fresh
    page, and the repeated navigation of the same URL. -/
def relaunchTail (s8 : St) (tr3 : FetchTrace) (pid : Nat) (env : FetchEnv) :
    St × FetchTrace × Option Nat × FetchResult :=
  match getBrowserM s8 env env.relaunchOk with
  | (s9, .error _, launched2) =>
    (s9, { tr3 with launches := tr3.launches + (if launched2 then 1 else 0) }, some pid, .err)
  | (s9, .ok b3, launched2) =>
    let tr4 := { tr3 with launches := tr3.launches + (if launched2 then 1 else 0) }
    if !b3.connected then (s9, tr4, some pid, .err)
    else if !env.relaunchNewPageOk then (s9, tr4, some pid, .err)
    else
      let (s10, pid2) := newPageM s9
      let s11 := track s10 pid2
      let tr5 := { tr4 with openedPages := tr4.openedPages ++ [pid2] }
      let tr6 := { tr5 with renavigations := tr5.renavigations + 1 }
      if !env.navOk2 then (s11, tr6, some pid2, .err)
      else finishFetch s11 tr6 pid2 env true

/-- The challenge-recovery branch of fetchMultiUpPage (src/server.js lines
    487-566), entered when the first document carries the challenge
    signature, the current browser is headless and a display is available:
    set the challenge flag, close the own page, close every page of the
    browser and the browser itself, clear the pool state, then relaunch and
    re-navigate through relaunchTail. -/
def recoveryFetch (s4 : St) (tr2 : FetchTrace) (pid : Nat) (env : FetchEnv) :
    St × FetchTrace × Option Nat × FetchResult :=
  let s5 := { s4 with cloudflareChallengeDetected := true }
  let tr3 := { tr2 with recoveries := tr2.recoveries + 1 }
  let s6 := closePageM (untrack s5 pid) pid
  let s7 :=
    match s6.globalBrowser with
    | some b2 => if b2.connected then closeBrowserM (closeAllPages s6 b2.pages) else s6
    | none => s6
  let s8 := { s7 with globalBrowser := none, browserInitializing := false,
                      browserInitPromiseSet := false, isBrowserHeadless := false }
  relaunchTail s8 tr3 pid env

/-- The try block of fetchMultiUpPage (src/server.js lines 418-611).  The
    Option Nat component is the page local variable at exit, consumed by the
    finally block. -/
def fetchBody (s0 : St) (env : FetchEnv) : St × FetchTrace × Option Nat × FetchResult :=
  match getBrowserM s0 env env.launchOk with
  | (s1, .error _, _) => (s1, emptyTrace, none, .err)
  | (s1, .ok b, launched1) =>
    let tr1 := { emptyTrace with launches := if launched1 then 1 else 0 }
    if !b.connected then (s1, tr1, none, .err)
    else
      let currentPages := b.pages
      let s2 := if MAX_PAGES_PER_BROWSER ≤ currentPages.length
                then closeAllButFirst s1 currentPages else s1
      if (MAX_PAGES_PER_BROWSER ≤ currentPages.length &&
          MAX_PAGES_PER_BROWSER ≤ openPageCount s2 : Bool) then
        (s2, tr1, none, .err)
      else if !env.newPageOk then (s2, tr1, none, .err)
      else
        let (s3, pid) := newPageM s2
        let s4 := track s3 pid
        let tr2 := { tr1 with openedPages := tr1.openedPages ++ [pid] }
        if !env.navOk then (s4, tr2, some pid, .err)
        else if cfChallengeSig env.title1 env.content1 then
          if s4.isBrowserHeadless && env.hasDisplay then
            recoveryFetch s4 tr2 pid env
          else
            finishFetch s4 tr2 pid env false
        else
          finishFetch s4 tr2 pid env false

/-- The finally block of fetchMultiUpPage (src/server.js lines 612-624):
    untrack and close the page local variable when set, then release the
    slot (activeRequestCount = Math.max(0, activeRequestCount - 1), which on
    the Nat counter is truncated subtraction). -/
def fetchFinally (r : St × FetchTrace × Option Nat × FetchResult) : St × FetchTrace × FetchResult :=
  let (s, tr, pv, res) := r
  let s1 :=
    match pv with
    | some p => closePageM (untrack s p) p
    | none => s
  ({ s1 with activeRequestCount := s1.activeRequestCount - 1 },
   { tr with releases := tr.releases + 1 }, res)

/-- fetchMultiUpPage (src/server.js lines 411-625): waitForBrowserSlot
    blocks while the counter is at the ceiling (a solo caller would poll
    forever, modelled as none), then increments the counter and runs the
    try block followed by the finally block. -/
def fetchMultiUpPage (s : St) (env : FetchEnv) : Option (St × FetchTrace × FetchResult) :=
  if MAX_CONCURRENT_REQUESTS ≤ s.activeRequestCount then none
  else
    some (fetchFinally (fetchBody { s with activeRequestCount := s.activeRequestCount + 1 } env))

/-- State after a fetch operation (the initial state when the operation
    would block, which the paired isSome conjunct of each theorem below
    rules out). -/
def fetchStAfter (s : St) (env : FetchEnv) : St :=
  ((fetchMultiUpPage s env).map (fun r => r.1)).getD s

/-- Trace of a fetch operation. -/
def fetchTraceAfter (s : St) (env : FetchEnv) : FetchTrace :=
  ((fetchMultiUpPage s env).map (fun r => r.2.1)).getD emptyTrace

/-- Result of a fetch operation. -/
def fetchResultAfter (s : St) (env : FetchEnv) : FetchResult :=
  ((fetchMultiUpPage s env).map (fun r => r.2.2)).getD .err

/-- A pre-warmed single-fetch configuration: a live connected browser whose
    only open page is its default page (id 1), no tracked pages, no request
    in flight, initialization idle.  hl is the current mode of the browser
    and ch the current challenge flag. -/
def cleanSt (hl ch : Bool) : St :=
  { globalBrowser := some { bid := 0, connected := true, pages := [1], headless := hl }
    browserInitializing := false
    browserInitPromiseSet := true
    cloudflareChallengeDetected := ch
    isBrowserHeadless := hl
    activePages := []
    isShuttingDown := false
    activeRequestCount := 0
    periodicCleanupSet := true
    nextId := 2 }

/-- Oracle assembled from outcome bits; the first document carries the
    challenge signature exactly when c1 is set. -/
def envBits (launchOk relaunchOk hasDisplay hasCookies newPageOk navOk c1
    relaunchNewPageOk navOk2 raceOk : Bool) : FetchEnv :=
  { launchOk := launchOk
    relaunchOk := relaunchOk
    hasDisplay := hasDisplay
    hasCookies := hasCookies
    newPageOk := newPageOk
    navOk := navOk
    title1 := if c1 then "Just a moment" else "MultiUp"
    content1 := ""
    relaunchNewPageOk := relaunchNewPageOk
    navOk2 := navOk2
    title2 := ""
    content2 := ""
    raceOk := raceOk
    h2Ok := true
    finalHtml := "" }

/-! ## The periodic reconciliation tick (src/server.js lines 302-361)

    One execution of the setInterval callback of startPeriodicCleanup. -/

/-- Index of a page in the snapshot of the live page list (List.indexOf
    semantics of the source: position of the first occurrence). -/
def pageIndex (ps : List Nat) (p : Nat) : Nat := ps.indexOf p

/-- One step of phase 3 of the cleanup tick (src/server.js lines 342-352):
    a page of the snapshot that is untracked, at index above 0 and still
    open is closed. -/
def sweepUntracked (browserPages : List Nat) (acc : St) (p : Nat) : St :=
  if !(acc.activePages.contains p) && decide (0 < pageIndex browserPages p) then
    (if pageClosed acc p then acc else closePageM acc p)
  else acc

/-- One tick of the periodic cleanup.  With no connected browser the
    tracked set is cleared (lines 303-306).  Otherwise, phase 1 (lines
    314-329) drops from tracking every tracked page that is closed or no
    longer in the live page list, and marks every tracked live page at
    index above 0 for closing; phase 2 (lines 331-340) untracks and closes
    the marked pages (the same untrack-and-close loop shape as
    closeAllPages); phase 3 (lines 342-352) closes every page of the
    snapshot that is untracked, at index above 0 and still open. -/
def cleanupTick (s : St) : St :=
  match s.globalBrowser with
  | none => { s with activePages := [] }
  | some b =>
    if !b.connected then { s with activePages := [] }
    else
      let browserPages := b.pages
      let keep := s.activePages.filter (fun p => browserPages.contains p)
      let toClose := keep.filter (fun p => 0 < pageIndex browserPages p)
      let s1 := { s with activePages := keep }
      let s2 := closeAllPages s1 toClose
      browserPages.foldl (sweepUntracked browserPages) s2

/-- A pool state with the default page 0 and one tracked live page 1
    (a fetch in flight), as seen by a cleanup tick. -/
def cexCleanupSt : St :=
  { globalBrowser := some { bid := 9, connected := true, pages := [0, 1], headless := true }
    browserInitializing := false
    browserInitPromiseSet := true
    cloudflareChallengeDetected := false
    isBrowserHeadless := true
    activePages := [1]
    isShuttingDown := false
    activeRequestCount := 1
    periodicCleanupSet := true
    nextId := 2 }

/-! ## The stream request handler (src/server.js lines 1096-1293)

    handleStreamRequest is modelled at the level of its decision structure:
    every external interaction (cache, Cinemeta, scnlog search, MultiUp
    extraction, the browser fetch inside hoster extraction, Real-Debrid,
    page cleanup, cache write) is an observable effect whose outcome comes
    from a HandlerEnv oracle. -/

/-- Splitting a character list at a separator (JavaScript id.split used
    with a one-character separator). -/
def splitCharAux (sep : Char) : List Char → List Char → List (List Char)
  | [], acc => [acc.reverse]
  | c :: cs, acc =>
    if c == sep then acc.reverse :: splitCharAux sep cs []
    else splitCharAux sep cs (c :: acc)

/-- Model of JavaScript split on a string with a one-character separator. -/
def jsSplit (s : String) (sep : Char) : List String :=
  (splitCharAux sep s.toList []).map (fun l => String.mk l)

/-- Model of JavaScript startsWith. -/
def jsStartsWith (s pat : String) : Bool := prefL pat.toList s.toList

/-- Model of JavaScript parseInt applied to a string: leading whitespace is
    skipped, an optional sign is consumed, and the longest leading run of
    decimal digits yields the value; no digits yields NaN (none). -/
def digitsVal (cs : List Char) : Nat :=
  cs.foldl (fun a c => a * 10 + (c.toNat - '0'.toNat)) 0

def parseIntJS (s : String) : Option Int :=
  let cs := s.toList.dropWhile (fun c => c == ' ' || c == '\t' || c == '\n' || c == '\r')
  match cs with
  | '-' :: r =>
    let ds := r.takeWhile Char.isDigit
    if ds.isEmpty then none else some (-(digitsVal ds : Int))
  | '+' :: r =>
    let ds := r.takeWhile Char.isDigit
    if ds.isEmpty then none else some (digitsVal ds : Int)
  | _ =>
    let ds := cs.takeWhile Char.isDigit
    if ds.isEmpty then none else some (digitsVal ds : Int)

/-- The guard of src/server.js line 1105: isNaN(season) or season below 1
    (and likewise for episode). -/
def invalidSE (x : Option Int) : Bool :=
  match x with
  | none => true
  | some v => v < 1

inductive HEffect
  | cacheRead
  | titleLookup
  | search
  | multiUpExtract
  | postTitleFetch
  | browserFetch
  | hosterExtract
  | rdCall
  | pageCleanup
  | cacheWrite
  deriving DecidableEq, Repr

inductive StreamItem
  | real (sid : Nat)
  | errorCard (reason : String)
  deriving DecidableEq, Repr

/-- Outcomes of the external collaborators of one stream request.  Hoster
    links are abstracted to an id paired with whether Real-Debrid
    unrestricts them. -/
structure HandlerEnv where
  cached : Option (List Nat)
  title : Option String
  postUrl : Option String
  multiUp : Option String
  hosters : List (Nat × Bool)
  hadInvalidHosters : Bool
  deriving DecidableEq, Repr

/-- First hoster link that Real-Debrid accepts (the loop of lines
    1216-1250 breaks at the first success). -/
def firstOk : List (Nat × Bool) → Option Nat
  | [] => none
  | (sid, ok) :: rest => if ok then some sid else firstOk rest

/-- Number of hoster links tried by that loop (all of them up to and
    including the first success). -/
def triedCount : List (Nat × Bool) → Nat
  | [] => 0
  | (_, ok) :: rest => if ok then 1 else 1 + triedCount rest

/-- handleStreamRequest (src/server.js lines 1096-1293) for a series
    request, as a pure function from the request id and the oracle to the
    returned stream list and the ordered list of performed effects. -/
def handleStreamRequest (ty id : String) (env : HandlerEnv) : List StreamItem × List HEffect :=
  let parts := jsSplit id ':'
  if ty == "series" && decide (3 ≤ parts.length) then
    let imdbId := parts.getD 0 ""
    let season := parseIntJS (parts.getD (parts.length - 2) "")
    let episode := parseIntJS (parts.getD (parts.length - 1) "")
    if invalidSE season || invalidSE episode then ([], [])
    else
      let isImdb := jsStartsWith imdbId "tt"
      let eff0 := if isImdb then [HEffect.cacheRead] else []
      match (if isImdb then env.cached else none) with
      | some cs => (cs.map .real, eff0)
      | none =>
        let titleOpt := if isImdb then env.title
                        else some (String.intercalate ":" (parts.dropLast.dropLast))
        let eff1 := if isImdb then eff0 ++ [HEffect.titleLookup] else eff0
        match titleOpt with
        | none => ([], eff1)
        | some t =>
          if t == "" then ([], eff1)
          else
            let eff2 := eff1 ++ [HEffect.search]
            match env.postUrl with
            | none => ([.errorCard "No scnlog post found"], eff2 ++ [HEffect.pageCleanup])
            | some _ =>
              let eff3 := eff2 ++ [HEffect.multiUpExtract]
              match env.multiUp with
              | none => ([.errorCard "No MultiUp link found"], eff3 ++ [HEffect.pageCleanup])
              | some _ =>
                let eff4 := eff3 ++ [HEffect.postTitleFetch, HEffect.browserFetch,
                                     HEffect.hosterExtract]
                if env.hosters.isEmpty then
                  (([.errorCard (if env.hadInvalidHosters then "No valid hosters"
                                 else "No hoster links found")]),
                   eff4 ++ [HEffect.pageCleanup])
                else
                  let eff5 := eff4 ++ List.replicate (triedCount env.hosters) HEffect.rdCall
                              ++ [HEffect.pageCleanup]
                  match firstOk env.hosters with
                  | none => ([.errorCard "No valid hosters"], eff5)
                  | some sid =>
                    (([.real sid]),
                     if isImdb then eff5 ++ [HEffect.cacheWrite] else eff5)
  else if ty == "movie" then ([], [])
  else ([], [])

/-! ## Concurrent admission control (src/server.js lines 377-387, 416, 623)

    Each concurrent fetchPage caller is one task.  waitForBrowserSlot is a
    polling loop whose body awaits a timer; on the cooperative scheduler the
    final loop-condition check and the increment run in one synchronous
    segment, so acquisition is one atomic step guarded by
    activeRequestCount < MAX_CONCURRENT_REQUESTS.  A task holding a slot is
    mid-navigation; releaseBrowserSlot is one step (the decrement clamps at
    zero).  Tasks are an unordered bag. -/

inductive TaskPhase
  | waiting
  | holding
  | finished
  deriving DecidableEq, Repr

structure AdmState where
  count : Nat
  tasks : Multiset TaskPhase

/-- One scheduler step of the admission controller. -/
inductive AdmStep : AdmState → AdmState → Prop
  | acquire (st : AdmState) (rest : Multiset TaskPhase)
      (ht : st.tasks = .waiting ::ₘ rest) (hc : st.count < MAX_CONCURRENT_REQUESTS) :
      AdmStep st { count := st.count + 1, tasks := .holding ::ₘ rest }
  | poll (st : AdmState) (rest : Multiset TaskPhase)
      (ht : st.tasks = .waiting ::ₘ rest) (hc : MAX_CONCURRENT_REQUESTS ≤ st.count) :
      AdmStep st st
  | release (st : AdmState) (rest : Multiset TaskPhase)
      (ht : st.tasks = .holding ::ₘ rest) :
      AdmStep st { count := st.count - 1, tasks := .finished ::ₘ rest }

/-- k concurrent fetchPage calls about to enter waitForBrowserSlot. -/
def admInit (k : Nat) : AdmState :=
  { count := 0, tasks := Multiset.replicate k .waiting }

inductive AdmReachable (k : Nat) : AdmState → Prop
  | init : AdmReachable k (admInit k)
  | step {s t : AdmState} : AdmReachable k s → AdmStep s t → AdmReachable k t

/-- Number of tasks currently holding a slot (mid-navigation). -/
def holdingCount (s : AdmState) : Nat := s.tasks.count .holding

/-! ## Concurrent serialized browser initialization (src/server.js 172-295)

    Each concurrent getBrowser caller is one task.  Steps are the await
    boundaries of getBrowser: the entry check runs synchronously up to
    either returning the live browser, awaiting the shared init promise, or
    claiming the initialization (setting browserInitializing and
    browserInitPromise in the same synchronous segment) and suspending at
    the puppeteer.launch await.  Launch completion (or failure) resolves
    the shared promise; awaiting tasks then read its settled value.  A
    disconnect event of the live browser clears the browser reference and
    the initialization state (the disconnected handler, lines 270-282). -/

inductive GBPhase
  | entry
  | awaiting (p : Nat)
  | launching (p : Nat)
  | done (r : Option Nat) (viaP : Option Nat)
  deriving DecidableEq, Repr

structure GBState where
  browser : Option Nat
  initializing : Bool
  initPromise : Option Nat
  resolved : List (Nat × Option Nat)
  nextId : Nat
  tasks : Multiset GBPhase

/-- One scheduler step of concurrent getBrowser callers. -/
inductive GBStep : GBState → GBState → Prop
  | fastPath (st : GBState) (rest : Multiset GBPhase) (b : Nat)
      (ht : st.tasks = .entry ::ₘ rest) (hb : st.browser = some b) :
      GBStep st { st with tasks := .done (some b) none ::ₘ rest }
  | joinInit (st : GBState) (rest : Multiset GBPhase) (p : Nat)
      (ht : st.tasks = .entry ::ₘ rest) (hb : st.browser = none)
      (hi : st.initializing = true) (hp : st.initPromise = some p) :
      GBStep st { st with tasks := .awaiting p ::ₘ rest }
  | beginInit (st : GBState) (rest : Multiset GBPhase)
      (ht : st.tasks = .entry ::ₘ rest) (hb : st.browser = none)
      (hg : st.initializing = false ∨ st.initPromise = none) :
      GBStep st { st with initializing := true, initPromise := some st.nextId,
                          nextId := st.nextId + 1,
                          tasks := .launching st.nextId ::ₘ rest }
  | launchOk (st : GBState) (rest : Multiset GBPhase) (p : Nat)
      (ht : st.tasks = .launching p ::ₘ rest) :
      GBStep st { st with browser := some st.nextId, initializing := false,
                          resolved := (p, some st.nextId) :: st.resolved,
                          nextId := st.nextId + 1,
                          tasks := .done (some st.nextId) (some p) ::ₘ rest }
  | launchFail (st : GBState) (rest : Multiset GBPhase) (p : Nat)
      (ht : st.tasks = .launching p ::ₘ rest) :
      GBStep st { st with initializing := false, initPromise := none,
                          resolved := (p, none) :: st.resolved,
                          tasks := .done none (some p) ::ₘ rest }
  | awaitDone (st : GBState) (rest : Multiset GBPhase) (p : Nat) (r : Option Nat)
      (ht : st.tasks = .awaiting p ::ₘ rest)
      (hr : st.resolved.lookup p = some r) :
      GBStep st { st with tasks := .done r (some p) ::ₘ rest }
  | disconnect (st : GBState) (b : Nat) (hb : st.browser = some b) :
      GBStep st { st with browser := none, initializing := false, initPromise := none }

/-- k concurrent getBrowser callers at a cold start. -/
def gbInit (k : Nat) : GBState :=
  { browser := none, initializing := false, initPromise := none,
    resolved := [], nextId := 0, tasks := Multiset.replicate k .entry }

inductive GBReachable (k : Nat) : GBState → Prop
  | init : GBReachable k (gbInit k)
  | step {s t : GBState} : GBReachable k s → GBStep s t → GBReachable k t

/-- Whether a task phase is mid-initialization (suspended at the launch
    await inside the init closure). -/
def isLaunching : GBPhase → Bool
  | .launching _ => true
  | _ => false

/-- Number of initializations currently running. -/
def launchingCount (s : GBState) : Nat := s.tasks.countP (fun t => isLaunching t)

/-- Inductive invariant of the initialization protocol: at most one
    initialization runs; a running initialization owns the in-progress flag,
    the shared unresolved promise and excludes a live browser; a settled
    caller that went through a promise read exactly the recorded resolution
    of that promise; promise ids are allocated fresh. -/
def gbInv (s : GBState) : Prop :=
  launchingCount s ≤ 1 ∧
  (∀ p, GBPhase.launching p ∈ s.tasks →
    s.initializing = true ∧ s.initPromise = some p ∧
    s.resolved.lookup p = none ∧ s.browser = none) ∧
  (∀ r p, GBPhase.done r (some p) ∈ s.tasks → s.resolved.lookup p = some r) ∧
  (∀ pr ∈ s.resolved, pr.1 < s.nextId) ∧
  (∀ p, s.initPromise = some p → p < s.nextId)

/-! # Helper lemmas -/

theorem foldlCU_count (l : List Nat) (s : St) :
    (l.foldl (fun acc p => closePageM (untrack acc p) p) s).activeRequestCount
      = s.activeRequestCount := by
  induction l generalizing s with
  | nil => rfl
  | cons a t ih => exact ih (closePageM (untrack s a) a)

theorem closeAllButFirst_count (s : St) (ps : List Nat) :
    (closeAllButFirst s ps).activeRequestCount = s.activeRequestCount := by
  cases ps with
  | nil => rfl
  | cons a t => exact foldlCU_count t s

theorem closeAllPages_count (s : St) (ps : List Nat) :
    (closeAllPages s ps).activeRequestCount = s.activeRequestCount :=
  foldlCU_count ps s

theorem newPageM_count (s : St) :
    (newPageM s).1.activeRequestCount = s.activeRequestCount := by
  rcases hg : s.globalBrowser with _ | b <;> simp [newPageM, hg]

theorem launchBrowser_count (s : St) (env : FetchEnv) (ok : Bool) :
    (launchBrowser s env ok).1.activeRequestCount = s.activeRequestCount := by
  cases ok <;> rfl

theorem getBrowserM_count (s : St) (env : FetchEnv) (ok : Bool) :
    (getBrowserM s env ok).1.activeRequestCount = s.activeRequestCount := by
  rcases hg : s.globalBrowser with _ | b
  · simp only [getBrowserM, hg]
    split
    · rfl
    · exact launchBrowser_count ..
  · simp only [getBrowserM, hg]
    split
    · split
      · exact launchBrowser_count ..
      · rfl
    · split
      · rfl
      · exact launchBrowser_count ..

theorem finishFetch_frame (s : St) (tr : FetchTrace) (pid : Nat) (env : FetchEnv)
    (nv : Bool) :
    (finishFetch s tr pid env nv).1.activeRequestCount = s.activeRequestCount ∧
    (finishFetch s tr pid env nv).2.1.releases = tr.releases := by
  unfold finishFetch
  split <;> exact ⟨rfl, rfl⟩

theorem relaunchTail_frame (s8 : St) (tr3 : FetchTrace) (pid : Nat) (env : FetchEnv) :
    (relaunchTail s8 tr3 pid env).1.activeRequestCount = s8.activeRequestCount ∧
    (relaunchTail s8 tr3 pid env).2.1.releases = tr3.releases := by
  rcases heq : getBrowserM s8 env env.relaunchOk with ⟨s9, rb, l2⟩
  have hc : s9.activeRequestCount = s8.activeRequestCount := by
    have h := getBrowserM_count s8 env env.relaunchOk
    rw [heq] at h
    exact h
  rw [relaunchTail, heq]
  rcases rb with e | b3
  · exact ⟨hc, rfl⟩
  · dsimp only
    split
    · exact ⟨hc, rfl⟩
    · split
      · exact ⟨hc, rfl⟩
      · rcases hnp : newPageM s9 with ⟨s10, pid2⟩
        have hc10 : s10.activeRequestCount = s9.activeRequestCount := by
          have h := newPageM_count s9
          rw [hnp] at h
          exact h
        split
        · exact ⟨hc10.trans hc, rfl⟩
        · exact ⟨(finishFetch_frame ..).1.trans (hc10.trans hc), (finishFetch_frame ..).2⟩

theorem recoveryFetch_frame (s4 : St) (tr2 : FetchTrace) (pid : Nat) (env : FetchEnv) :
    (recoveryFetch s4 tr2 pid env).1.activeRequestCount = s4.activeRequestCount ∧
    (recoveryFetch s4 tr2 pid env).2.1.releases = tr2.releases := by
  rw [recoveryFetch]
  refine ⟨(relaunchTail_frame ..).1.trans ?_, (relaunchTail_frame ..).2⟩
  split
  · split
    · exact closeAllPages_count ..
    · rfl
  · rfl

theorem fetchBody_frame (s0 : St) (env : FetchEnv) :
    (fetchBody s0 env).1.activeRequestCount = s0.activeRequestCount ∧
    (fetchBody s0 env).2.1.releases = 0 := by
  rcases heq : getBrowserM s0 env env.launchOk with ⟨s1, rb, l1⟩
  have hc : s1.activeRequestCount = s0.activeRequestCount := by
    have h := getBrowserM_count s0 env env.launchOk
    rw [heq] at h
    exact h
  rw [fetchBody, heq]
  rcases rb with e | b
  · exact ⟨hc, rfl⟩
  · dsimp only
    split
    · exact ⟨hc, rfl⟩
    · generalize hs2 : (if MAX_PAGES_PER_BROWSER ≤ b.pages.length
          then closeAllButFirst s1 b.pages else s1) = s2
      have hc2 : s2.activeRequestCount = s0.activeRequestCount := by
        rw [← hs2]
        split
        · exact (closeAllButFirst_count ..).trans hc
        · exact hc
      split
      · exact ⟨hc2, rfl⟩
      · split
        · exact ⟨hc2, rfl⟩
        · rcases hnp : newPageM s2 with ⟨s3, pid⟩
          have hc3 : s3.activeRequestCount = s0.activeRequestCount := by
            have h := newPageM_count s2
            rw [hnp] at h
            exact h.trans hc2
          split
          · exact ⟨hc3, rfl⟩
          · split
            · split
              · exact ⟨(recoveryFetch_frame ..).1.trans hc3, (recoveryFetch_frame ..).2⟩
              · exact ⟨(finishFetch_frame ..).1.trans hc3, (finishFetch_frame ..).2⟩
            · exact ⟨(finishFetch_frame ..).1.trans hc3, (finishFetch_frame ..).2⟩

/-! Helper lemmas for the universal no-leak property of the fetch
    operation: page ids are allocated from the monotone counter, closing
    and untracking only remove, so a page closed and untracked during the
    operation stays so at exit. -/

theorem contains_eq_true {l : List Nat} {x : Nat} (h : x ∈ l) : l.contains x = true :=
  List.elem_iff.mpr h

theorem contains_eq_false {l : List Nat} {x : Nat} (h : x ∉ l) : l.contains x = false := by
  cases hc : l.contains x
  · rfl
  · exact absurd (List.elem_iff.mp hc) h

theorem mem_of_contains {l : List Nat} {x : Nat} (h : l.contains x = true) : x ∈ l :=
  List.elem_iff.mp h

theorem notmem_filter {l : List Nat} {f : Nat → Bool} {p : Nat} (h : p ∉ l) :
    p ∉ l.filter f :=
  fun hm => h (List.mem_filter.mp hm).1

theorem notmem_filter_self (l : List Nat) (p : Nat) :
    p ∉ l.filter (fun q => !(q == p)) := by
  intro hm
  have h2 := (List.mem_filter.mp hm).2
  simp at h2

theorem pageClosed_closePage_self (s : St) (p : Nat) :
    pageClosed (closePageM s p) p = true := by
  rcases hg : s.globalBrowser with _ | b
  · simp [pageClosed, closePageM, hg]
  · simp [pageClosed, closePageM, hg]

theorem pageClosed_mono_close (s : St) (q p : Nat) (h : pageClosed s p = true) :
    pageClosed (closePageM s q) p = true := by
  rcases hg : s.globalBrowser with _ | b
  · simp [pageClosed, closePageM, hg]
  · have e : pageClosed s p = !(b.pages.contains p) := by rw [pageClosed, hg]
    rw [e] at h
    have hp : p ∉ b.pages := by
      intro hm
      rw [contains_eq_true hm] at h
      exact absurd h (by decide)
    simp [pageClosed, closePageM, hg]
    exact Or.inl hp

theorem act_untrack_self (s : St) (p : Nat) : p ∉ (untrack s p).activePages :=
  notmem_filter_self s.activePages p

theorem act_untrack_mono (s : St) (q p : Nat) (h : p ∉ s.activePages) :
    p ∉ (untrack s q).activePages :=
  notmem_filter h

theorem act_track_mono (s : St) (q p : Nat) (h : p ∉ s.activePages) (hne : p ≠ q) :
    p ∉ (track s q).activePages := by
  unfold track
  split
  · exact h
  · intro hm
    rcases List.mem_append.mp hm with h1 | h2
    · exact h h1
    · rw [List.mem_singleton] at h2
      exact hne h2

theorem getBrowserM_none (s : St) (env : FetchEnv) (ok : Bool)
    (hgb : s.globalBrowser = none) (hini : s.browserInitializing = false) :
    getBrowserM s env ok = launchBrowser s env ok := by
  unfold getBrowserM
  rw [hgb, hini]
  rfl

theorem newPageM_pid (s : St) (b : Browser) (hg : s.globalBrowser = some b) :
    (newPageM s).2 = s.nextId ∧ (newPageM s).1.nextId = s.nextId + 1 ∧
    (newPageM s).1.globalBrowser = some { b with pages := b.pages ++ [s.nextId] } ∧
    (newPageM s).1.activePages = s.activePages := by
  rw [newPageM, hg]
  exact ⟨rfl, rfl, rfl, rfl⟩

theorem launchBrowser_ok_browser (s : St) (env : FetchEnv) (ok : Bool)
    (s1 : St) (b : Browser) (l : Bool)
    (heq : launchBrowser s env ok = (s1, .ok b, l)) :
    s1.globalBrowser = some b := by
  cases ok with
  | false =>
    rw [launchBrowser] at heq
    injection heq with h1 h2
    injection h2 with h2 h3
    exact absurd h2 (by simp)
  | true =>
    rw [launchBrowser] at heq
    injection heq with h1 h2
    injection h2 with h2 h3
    rw [← h1]
    injection h2 with h4
    rw [← h4]

theorem getBrowserM_ok_browser (s : St) (env : FetchEnv) (ok : Bool)
    (s1 : St) (b : Browser) (l : Bool)
    (heq : getBrowserM s env ok = (s1, .ok b, l)) :
    s1.globalBrowser = some b := by
  unfold getBrowserM at heq
  split at heq
  · rename_i b0 hg
    split at heq
    · split at heq
      · exact launchBrowser_ok_browser _ _ _ _ _ _ heq
      · injection heq with h1 h2
        injection h2 with h2 h3
        injection h2 with h4
        rw [← h1, hg, h4]
    · split at heq
      · injection heq with h1 h2
        injection h2 with h2 h3
        exact Except.noConfusion h2
      · exact launchBrowser_ok_browser _ _ _ _ _ _ heq
  · split at heq
    · injection heq with h1 h2
      injection h2 with h2 h3
      exact Except.noConfusion h2
    · exact launchBrowser_ok_browser _ _ _ _ _ _ heq

theorem foldlCU_nextId (l : List Nat) (s : St) :
    (l.foldl (fun acc p => closePageM (untrack acc p) p) s).nextId = s.nextId := by
  induction l generalizing s with
  | nil => rfl
  | cons a t ih => exact ih (closePageM (untrack s a) a)

theorem closeAllPages_nextId (s : St) (ps : List Nat) :
    (closeAllPages s ps).nextId = s.nextId :=
  foldlCU_nextId ps s

theorem finishFetch_state (s : St) (tr : FetchTrace) (pid : Nat) (env : FetchEnv)
    (nv : Bool) :
    (finishFetch s tr pid env nv).1.globalBrowser = s.globalBrowser ∧
    (finishFetch s tr pid env nv).1.activePages = s.activePages ∧
    (finishFetch s tr pid env nv).2.1 = tr ∧
    (finishFetch s tr pid env nv).2.2.1 = some pid := by
  unfold finishFetch
  split <;> exact ⟨rfl, rfl, rfl, rfl⟩

theorem launchBrowser_cases (s : St) (env : FetchEnv) (ok : Bool) (s9 : St)
    (rb : Except Unit Browser) (l2 : Bool)
    (heq : launchBrowser s env ok = (s9, rb, l2)) :
    (∃ e, rb = .error e ∧ s9.globalBrowser = s.globalBrowser ∧
      s9.activePages = s.activePages ∧ s9.nextId = s.nextId) ∨
    (∃ b3, rb = .ok b3 ∧ b3.pages = [s.nextId + 1] ∧ b3.connected = true ∧
      s9.globalBrowser = some b3 ∧ s9.activePages = s.activePages ∧
      s9.nextId = s.nextId + 2) := by
  cases ok with
  | false =>
    rw [launchBrowser] at heq
    injection heq with h1 h2
    injection h2 with h2 h3
    refine Or.inl ⟨(), h2.symm, ?_, ?_, ?_⟩ <;> rw [← h1]
  | true =>
    rw [launchBrowser] at heq
    injection heq with h1 h2
    injection h2 with h2 h3
    refine Or.inr ⟨_, h2.symm, rfl, rfl, ?_, ?_, ?_⟩ <;> rw [← h1]

/-- The relaunch half of the recovery branch never leaks the torn-down
    first page pid: either the relaunch aborts with pid still the page
    variable (so the finally block disposes of it), or a fresh page becomes
    the page variable and pid, already closed and untracked, stays so. -/
theorem relaunchTail_noleak (s8 : St) (tr3 : FetchTrace) (pid : Nat) (env : FetchEnv)
    (hgb : s8.globalBrowser = none) (hini : s8.browserInitializing = false)
    (hact : pid ∉ s8.activePages) (hnx : pid < s8.nextId) :
    ((relaunchTail s8 tr3 pid env).2.2.1 = some pid ∧
     (relaunchTail s8 tr3 pid env).2.1.openedPages = tr3.openedPages) ∨
    (pageClosed (relaunchTail s8 tr3 pid env).1 pid = true ∧
     pid ∉ (relaunchTail s8 tr3 pid env).1.activePages ∧
     ∃ pid2, (relaunchTail s8 tr3 pid env).2.1.openedPages = tr3.openedPages ++ [pid2] ∧
       (relaunchTail s8 tr3 pid env).2.2.1 = some pid2) := by
  rcases heq : getBrowserM s8 env env.relaunchOk with ⟨s9, rb, l2⟩
  have heqL : launchBrowser s8 env env.relaunchOk = (s9, rb, l2) :=
    (getBrowserM_none s8 env env.relaunchOk hgb hini).symm.trans heq
  rw [relaunchTail, heq]
  rcases launchBrowser_cases s8 env env.relaunchOk s9 rb l2 heqL with
    ⟨e, hrb, hgb9, hact9, hnx9⟩ | ⟨b3, hrb, hbp, hbc, hgb9, hact9, hnx9⟩
  · rw [hrb]
    exact Or.inl ⟨rfl, rfl⟩
  · rw [hrb]
    dsimp only
    split
    · exact Or.inl ⟨rfl, rfl⟩
    · split
      · exact Or.inl ⟨rfl, rfl⟩
      · rcases hnp : newPageM s9 with ⟨s10, pid2⟩
        have hfacts := newPageM_pid s9 b3 hgb9
        rw [hnp] at hfacts
        have hpid2 : pid2 = s9.nextId := hfacts.1
        have hgb10 : s10.globalBrowser = some { b3 with pages := b3.pages ++ [s9.nextId] } :=
          hfacts.2.2.1
        have hact10 : s10.activePages = s9.activePages := hfacts.2.2.2
        have hclosed : pageClosed (track s10 pid2) pid = true := by
          have e3 : (track s10 pid2).globalBrowser =
              some { b3 with pages := b3.pages ++ [s9.nextId] } := hgb10
          rw [pageClosed, e3]
          show (!((b3.pages ++ [s9.nextId]).contains pid)) = true
          rw [hbp, hnx9]
          have hm : pid ∉ ([s8.nextId + 1] ++ [s8.nextId + 2] : List Nat) := by
            intro hmem
            rcases List.mem_append.mp hmem with h | h <;> rw [List.mem_singleton] at h <;> omega
          rw [contains_eq_false hm]
          rfl
        have hact11 : pid ∉ (track s10 pid2).activePages := by
          refine act_track_mono _ _ _ ?_ ?_
          · rw [hact10, hact9]
            exact hact
          · rw [hpid2, hnx9]
            omega
        split
        · exact Or.inr ⟨hclosed, hact11, pid2, rfl, rfl⟩
        · unfold finishFetch
          dsimp only
          split
          · exact Or.inr ⟨hclosed, hact11, pid2, rfl, rfl⟩
          · exact Or.inr ⟨hclosed, hact11, pid2, rfl, rfl⟩

theorem contains_cons_eval (a x : Nat) (t : List Nat) :
    (a :: t).contains x = ((x == a) || t.contains x) := by
  show List.elem x (a :: t) = ((x == a) || List.elem x t)
  cases hxa : (x == a) <;> simp only [List.elem, hxa, Bool.false_or, Bool.true_or]

theorem closeAllPages_activePages (l : List Nat) (s : St) :
    (closeAllPages s l).activePages = s.activePages.filter (fun q => !(l.contains q)) := by
  induction l generalizing s with
  | nil =>
    show s.activePages = _
    simp [List.contains]
  | cons a t ih =>
    show (closeAllPages (closePageM (untrack s a) a) t).activePages = _
    rw [ih]
    show (s.activePages.filter (fun q => !(q == a))).filter (fun q => !(t.contains q)) = _
    rw [List.filter_filter]
    refine List.filter_congr ?_
    intro x hx
    rw [contains_cons_eval]
    cases hxa : (x == a) <;> cases hxt : t.contains x <;> simp [hxa, hxt]

theorem closeAllPages_globalBrowser (l : List Nat) (s : St) :
    (closeAllPages s l).globalBrowser
      = s.globalBrowser.map
          (fun b => { b with pages := b.pages.filter (fun q => !(l.contains q)) }) := by
  induction l generalizing s with
  | nil =>
    show s.globalBrowser = _
    rcases hg : s.globalBrowser with _ | b
    · rfl
    · simp [List.contains]
  | cons a t ih =>
    show (closeAllPages (closePageM (untrack s a) a) t).globalBrowser = _
    rcases hg : s.globalBrowser with _ | b
    · rw [ih]
      simp [closePageM, untrack, hg]
    · have hstep : (closePageM (untrack s a) a).globalBrowser
          = some { b with pages := b.pages.filter (fun q => !(q == a)) } := by
        simp [closePageM, untrack, hg]
      have hfil : (b.pages.filter (fun q => !(q == a))).filter (fun q => !(t.contains q))
          = b.pages.filter (fun q => !((a :: t).contains q)) := by
        rw [List.filter_filter]
        refine List.filter_congr ?_
        intro x hx
        rw [contains_cons_eval]
        cases hxa : (x == a) <;> cases hxt : t.contains x <;> simp [hxa, hxt]
      have hLHS : (closeAllPages (closePageM (untrack s a) a) t).globalBrowser
          = some { b with pages :=
              (b.pages.filter (fun q => !(q == a))).filter (fun q => !(t.contains q)) } := by
        rw [ih, hstep]
        rfl
      rw [hLHS, hfil]
      rfl

theorem teardown_act (s6 : St) (p : Nat) (h : p ∉ s6.activePages) :
    p ∉ (match s6.globalBrowser with
         | some b2 => if b2.connected then closeBrowserM (closeAllPages s6 b2.pages) else s6
         | none => s6).activePages := by
  rcases hg : s6.globalBrowser with _ | b2
  · exact h
  · show p ∉ (if b2.connected then closeBrowserM (closeAllPages s6 b2.pages) else s6).activePages
    split
    · show p ∉ (closeAllPages s6 b2.pages).activePages
      rw [closeAllPages_activePages]
      exact notmem_filter h
    · exact h

theorem teardown_nextId (s6 : St) :
    (match s6.globalBrowser with
     | some b2 => if b2.connected then closeBrowserM (closeAllPages s6 b2.pages) else s6
     | none => s6).nextId = s6.nextId := by
  rcases hg : s6.globalBrowser with _ | b2
  · rfl
  · show (if b2.connected then closeBrowserM (closeAllPages s6 b2.pages) else s6).nextId = s6.nextId
    split
    · show (closeAllPages s6 b2.pages).nextId = s6.nextId
      exact closeAllPages_nextId ..
    · rfl

/-- The challenge-recovery branch never leaks the torn-down first page:
    either the relaunch aborts with pid still the page variable, or the
    fresh page is the page variable and pid stays closed and untracked. -/
theorem recoveryFetch_noleak (s4 : St) (tr2 : FetchTrace) (pid : Nat) (env : FetchEnv)
    (hnx4 : pid < s4.nextId) :
    ((recoveryFetch s4 tr2 pid env).2.2.1 = some pid ∧
     (recoveryFetch s4 tr2 pid env).2.1.openedPages = tr2.openedPages) ∨
    (pageClosed (recoveryFetch s4 tr2 pid env).1 pid = true ∧
     pid ∉ (recoveryFetch s4 tr2 pid env).1.activePages ∧
     ∃ pid2, (recoveryFetch s4 tr2 pid env).2.1.openedPages = tr2.openedPages ++ [pid2] ∧
       (recoveryFetch s4 tr2 pid env).2.2.1 = some pid2) := by
  rw [recoveryFetch]
  refine relaunchTail_noleak _ _ _ _ ?_ ?_ ?_ ?_
  · rfl
  · rfl
  · exact teardown_act _ _ (act_untrack_self _ _)
  · exact lt_of_lt_of_eq hnx4
      (teardown_nextId (closePageM (untrack { s4 with cloudflareChallengeDetected := true } pid) pid)).symm

/-- The try block of the fetch never leaks an opened page: every page it
    opened is either the page variable at exit (disposed of by the finally
    block) or already closed and untracked. -/
theorem fetchBody_noleak (s0 : St) (env : FetchEnv) :
    ∀ p ∈ (fetchBody s0 env).2.1.openedPages,
      (fetchBody s0 env).2.2.1 = some p ∨
      (pageClosed (fetchBody s0 env).1 p = true ∧ p ∉ (fetchBody s0 env).1.activePages) := by
  rcases heq : getBrowserM s0 env env.launchOk with ⟨s1, rb, l1⟩
  rw [fetchBody, heq]
  rcases rb with e | b
  · intro p hp
    exact absurd hp (List.not_mem_nil p)
  · have hb1 : s1.globalBrowser = some b := getBrowserM_ok_browser _ _ _ _ _ _ heq
    dsimp only
    split
    · intro p hp
      exact absurd hp (List.not_mem_nil p)
    · generalize hs2 : (if MAX_PAGES_PER_BROWSER ≤ b.pages.length
          then closeAllButFirst s1 b.pages else s1) = s2
      have hs2some : ∃ bb, s2.globalBrowser = some bb := by
        rw [← hs2]
        split
        · rcases hbp : b.pages with _ | ⟨hd, tl⟩
          · exact ⟨b, hb1⟩
          · show ∃ bb, (closeAllPages s1 tl).globalBrowser = some bb
            rw [closeAllPages_globalBrowser, hb1]
            exact ⟨_, rfl⟩
        · exact ⟨b, hb1⟩
      split
      · intro p hp
        exact absurd hp (List.not_mem_nil p)
      · split
        · intro p hp
          exact absurd hp (List.not_mem_nil p)
        · rcases hnp : newPageM s2 with ⟨s3, pid⟩
          obtain ⟨bb, hbb⟩ := hs2some
          have hfacts := newPageM_pid s2 bb hbb
          rw [hnp] at hfacts
          have hpid : pid = s2.nextId := hfacts.1
          have hn3 : s3.nextId = s2.nextId + 1 := hfacts.2.1
          have hnx4 : pid < (track s3 pid).nextId := by
            show pid < s3.nextId
            omega
          split
          · intro p hp
            have hp2 : p ∈ [pid] := hp
            rw [List.mem_singleton] at hp2
            subst hp2
            exact Or.inl rfl
          · split
            · split
              · intro p hp
                rcases recoveryFetch_noleak (track s3 pid)
                    { launches := if l1 then 1 else 0, recoveries := 0, renavigations := 0,
                      openedPages := [pid], releases := 0 } pid env hnx4 with
                  ⟨hpv, hop⟩ | ⟨hcl, hac, pid2, hop, hpv⟩
                · have hp2 : p ∈ (recoveryFetch (track s3 pid)
                      { launches := if l1 then 1 else 0, recoveries := 0, renavigations := 0,
                        openedPages := [pid], releases := 0 } pid env).2.1.openedPages := hp
                  rw [hop] at hp2
                  have hp3 : p ∈ [pid] := hp2
                  rw [List.mem_singleton] at hp3
                  subst hp3
                  exact Or.inl hpv
                · have hp2 : p ∈ (recoveryFetch (track s3 pid)
                      { launches := if l1 then 1 else 0, recoveries := 0, renavigations := 0,
                        openedPages := [pid], releases := 0 } pid env).2.1.openedPages := hp
                  rw [hop] at hp2
                  have hp3 : p ∈ [pid] ++ [pid2] := hp2
                  rcases List.mem_append.mp hp3 with h | h <;> rw [List.mem_singleton] at h <;>
                    subst h
                  · exact Or.inr ⟨hcl, hac⟩
                  · exact Or.inl hpv
              · intro p hp
                have hp2 : p ∈ [pid] := hp
                rw [List.mem_singleton] at hp2
                subst hp2
                exact Or.inl (finishFetch_state ..).2.2.2
            · intro p hp
              have hp2 : p ∈ [pid] := hp
              rw [List.mem_singleton] at hp2
              subst hp2
              exact Or.inl (finishFetch_state ..).2.2.2

/-- For every initial state and every oracle, every page the fetch
    operation opened is closed and untracked when the operation returns:
    the finally block disposes of the page variable, and the recovery
    branch disposes of the first page before replacing it. -/
theorem fetchOp_noleak (s : St) (env : FetchEnv) (s1 : St) (tr : FetchTrace)
    (res : FetchResult) (heq : fetchMultiUpPage s env = some (s1, tr, res)) :
    ∀ p ∈ tr.openedPages, pageClosed s1 p = true ∧ p ∉ s1.activePages := by
  intro p hp
  rw [fetchMultiUpPage] at heq
  split at heq
  · exact Option.noConfusion heq
  · rcases hB : fetchBody { s with activeRequestCount := s.activeRequestCount + 1 } env with
      ⟨sb, trb, pv, resb⟩
    rw [hB] at heq
    injection heq with heq
    injection heq with h1 h2
    injection h2 with h2 h3
    have hnl := fetchBody_noleak { s with activeRequestCount := s.activeRequestCount + 1 } env
    rw [hB] at hnl
    have hp2 : p ∈ trb.openedPages := by
      rw [← h2] at hp
      exact hp
    rcases hnl p hp2 with hpv | ⟨hcl, hac⟩
    · have hpv2 : pv = some p := hpv
      subst hpv2
      constructor
      · rw [← h1]
        exact pageClosed_closePage_self (untrack sb p) p
      · rw [← h1]
        exact act_untrack_self sb p
    · have hcl2 : pageClosed sb p = true := hcl
      have hac2 : p ∉ sb.activePages := hac
      cases pv with
      | none =>
        constructor
        · rw [← h1]
          exact hcl2
        · rw [← h1]
          exact hac2
      | some q =>
        constructor
        · rw [← h1]
          exact pageClosed_mono_close (untrack sb q) q p hcl2
        · rw [← h1]
          exact act_untrack_mono sb q p hac2

/-! # Claim theorems -/

/-- C4: at session initialization the mode is headless exactly when no
    display is detected or saved cookies exist with no challenge pending;
    in particular with no display the mode is headless for every
    combination of cookies and challenge state. -/
theorem C4_mode_decision :
    ∀ hasDisplay hasCookies challengeDetected : Bool,
      finalHeadlessMode hasDisplay hasCookies challengeDetected =
        (!hasDisplay || (hasCookies && !challengeDetected)) ∧
      finalHeadlessMode false hasCookies challengeDetected = true := by
  decide

/-- C9: for every operation sequence on the admission counter, including
    more releases than acquisitions, the counter stays nonnegative, because
    releaseBrowserSlot clamps the decrement at zero. -/
theorem C9_count_nonnegative (c : Int) (ops : List SlotOp) (h : 0 ≤ c) :
    0 ≤ runSlotOps c ops := by
  induction ops generalizing c with
  | nil => exact h
  | cons op rest ih =>
    cases op with
    | acquire => exact ih (c + 1) (by omega)
    | release => exact ih (max 0 (c - 1)) (le_max_left 0 (c - 1))

theorem C9_count_nonnegative_witness :
    0 ≤ (0 : Int) ∧
    0 ≤ runSlotOps 0 [SlotOp.release, SlotOp.release, SlotOp.acquire,
                      SlotOp.release, SlotOp.release] :=
  ⟨by decide, C9_count_nonnegative 0 _ (by decide)⟩

theorem foldlClose_shut (l : List Nat) (s : St) :
    (l.foldl (fun acc p => closePageM acc p) s).isShuttingDown = s.isShuttingDown := by
  induction l generalizing s with
  | nil => rfl
  | cons a t ih => exact ih (closePageM s a)

/-- C8: graceful shutdown is idempotent: the first invocation leaves the
    shutting-down flag set, so a repeated invocation returns immediately
    and changes nothing (and, being a total function of the pool state,
    never throws). -/
theorem C8_shutdown_idempotent :
    ∀ s : St, (gracefulShutdown s).isShuttingDown = true ∧
      gracefulShutdown (gracefulShutdown s) = gracefulShutdown s := by
  intro s
  have key : (gracefulShutdown s).isShuttingDown = true := by
    by_cases h : s.isShuttingDown = true
    · simp [gracefulShutdown, h]
    · rw [gracefulShutdown, if_neg h]
      dsimp only
      split <;> (try split) <;> exact foldlClose_shut ..
  refine ⟨key, ?_⟩
  conv_lhs => rw [gracefulShutdown]
  simp [key]

/-- C7: for every invocation of the fetch operation, the admission slot
    acquired at entry is released exactly once, in the finally scope that
    runs on every exit path, so activeRequestCount after the operation
    equals its value before. -/
theorem C7_slot_released_once (s : St) (env : FetchEnv)
    (h : s.activeRequestCount < MAX_CONCURRENT_REQUESTS) :
    ∃ s1 tr res, fetchMultiUpPage s env = some (s1, tr, res) ∧
      tr.releases = 1 ∧ s1.activeRequestCount = s.activeRequestCount := by
  rw [fetchMultiUpPage, if_neg (not_le.mpr h)]
  have hfr := fetchBody_frame { s with activeRequestCount := s.activeRequestCount + 1 } env
  rcases hb : fetchBody { s with activeRequestCount := s.activeRequestCount + 1 } env
    with ⟨sb, trb, pv, res⟩
  rw [hb] at hfr
  have hcount : sb.activeRequestCount = s.activeRequestCount + 1 := hfr.1
  have hrel : trb.releases = 0 := hfr.2
  rcases pv with _ | p
  · exact ⟨_, _, _, rfl, by show trb.releases + 1 = 1; omega,
      by show sb.activeRequestCount - 1 = s.activeRequestCount; omega⟩
  · exact ⟨_, _, _, rfl, by show trb.releases + 1 = 1; omega,
      by show sb.activeRequestCount - 1 = s.activeRequestCount; omega⟩

theorem C7_slot_released_once_witness :
    ∃ s1 tr res, fetchMultiUpPage (cleanSt true false)
        (envBits true true true true true true false true true true) = some (s1, tr, res) ∧
      tr.releases = 1 ∧ s1.activeRequestCount = (cleanSt true false).activeRequestCount :=
  C7_slot_released_once _ _ (by decide)

/-- C5 counterexample: a fetch whose first document carries the challenge
    signature while a display is available, but whose browser is already in
    visible mode, performs zero teardown-relaunch-renavigate cycles (the
    recovery branch requires isBrowserHeadless, src/server.js line 487), so
    the claimed exactly-one does not hold for every such fetch. -/
theorem C5_visible_mode_counterexample :
    cfChallengeSig (envBits true true true true true true true true true true).title1
        (envBits true true true true true true true true true true).content1 = true ∧
    (envBits true true true true true true true true true true).hasDisplay = true ∧
    (fetchMultiUpPage (cleanSt false false)
        (envBits true true true true true true true true true true)).isSome = true ∧
    (fetchTraceAfter (cleanSt false false)
        (envBits true true true true true true true true true true)).recoveries = 0 ∧
    (fetchTraceAfter (cleanSt false false)
        (envBits true true true true true true true true true true)).renavigations = 0 := by
  decide

/-- C5 as amended: for every fetch whose first document carries the
    challenge signature while a display is available AND the session is
    currently headless (and the relaunch machinery itself succeeds),
    exactly one full teardown-and-relaunch happens, the relaunched session
    is visible, and the same URL is navigated exactly once more — not zero
    times and not two. -/
theorem C5_single_recovery :
    ∀ hasCookies ch navOk2 raceOk launchOk : Bool,
      (fetchMultiUpPage (cleanSt true ch)
          (envBits launchOk true true hasCookies true true true true navOk2 raceOk)).isSome = true ∧
      (fetchTraceAfter (cleanSt true ch)
          (envBits launchOk true true hasCookies true true true true navOk2 raceOk)).recoveries = 1 ∧
      (fetchTraceAfter (cleanSt true ch)
          (envBits launchOk true true hasCookies true true true true navOk2 raceOk)).renavigations = 1 ∧
      (fetchTraceAfter (cleanSt true ch)
          (envBits launchOk true true hasCookies true true true true navOk2 raceOk)).launches = 1 ∧
      (fetchStAfter (cleanSt true ch)
          (envBits launchOk true true hasCookies true true true true navOk2 raceOk)).isBrowserHeadless
        = false := by
  decide

/-- C2 counterexample: starting from a pre-warmed clean state with one open
    page (the default page of the live browser), a fetch that detects the
    challenge, tears the session down and then fails to relaunch returns
    with zero open pages, so the open-page count after the operation does
    not always equal the count before. -/
theorem C2_open_count_counterexample :
    openPageCount (cleanSt true false) = 1 ∧
    (fetchMultiUpPage (cleanSt true false)
        (envBits true false true true true true true true true true)).isSome = true ∧
    openPageCount (fetchStAfter (cleanSt true false)
        (envBits true false true true true true true true true true)) = 0 ∧
    fetchResultAfter (cleanSt true false)
        (envBits true false true true true true true true true true) = FetchResult.err := by
  decide

/-- C2 as amended: for every invocation of the fetch operation, from any
    state and under any oracle, every page the operation opened is closed
    and removed from the tracked active-page set before the operation
    returns; and from a pre-warmed clean single-fetch state, on every exit
    path the tracked set is left empty as it was and the number of open
    pages never exceeds the count before the operation (it can be lower
    only when a recovery teardown is followed by a failed relaunch, the
    path of the counterexample above). -/
theorem C2_no_page_leak :
    (∀ (s : St) (env : FetchEnv) (s1 : St) (tr : FetchTrace) (res : FetchResult),
      fetchMultiUpPage s env = some (s1, tr, res) →
      ∀ p ∈ tr.openedPages, pageClosed s1 p = true ∧ p ∉ s1.activePages) ∧
    (∀ launchOk relaunchOk hasDisplay hasCookies newPageOk navOk c1 rnp navOk2 raceOk hl ch : Bool,
      (fetchMultiUpPage (cleanSt hl ch)
          (envBits launchOk relaunchOk hasDisplay hasCookies newPageOk navOk c1 rnp navOk2 raceOk)).isSome
        = true ∧
      (fetchStAfter (cleanSt hl ch)
          (envBits launchOk relaunchOk hasDisplay hasCookies newPageOk navOk c1 rnp navOk2 raceOk)).activePages
        = [] ∧
      (∀ p ∈ (fetchTraceAfter (cleanSt hl ch)
          (envBits launchOk relaunchOk hasDisplay hasCookies newPageOk navOk c1 rnp navOk2 raceOk)).openedPages,
        pageClosed (fetchStAfter (cleanSt hl ch)
          (envBits launchOk relaunchOk hasDisplay hasCookies newPageOk navOk c1 rnp navOk2 raceOk)) p
          = true) ∧
      openPageCount (fetchStAfter (cleanSt hl ch)
          (envBits launchOk relaunchOk hasDisplay hasCookies newPageOk navOk c1 rnp navOk2 raceOk))
        ≤ openPageCount (cleanSt hl ch)) :=
  ⟨fetchOp_noleak, by decide⟩

/-- Witness for C2 as amended: a concrete challenged run from the clean
    state opens page 2, tears it down and relaunches; the theorem applied
    at that input shows page 2 closed and untracked at return. -/
theorem C2_no_page_leak_witness :
    pageClosed (fetchStAfter (cleanSt true false)
        (envBits true true true true true true true true true true)) 2 = true ∧
    2 ∉ (fetchStAfter (cleanSt true false)
        (envBits true true true true true true true true true true)).activePages :=
  C2_no_page_leak.1 (cleanSt true false)
    (envBits true true true true true true true true true true)
    (fetchStAfter (cleanSt true false) (envBits true true true true true true true true true true))
    (fetchTraceAfter (cleanSt true false) (envBits true true true true true true true true true true))
    (fetchResultAfter (cleanSt true false) (envBits true true true true true true true true true true))
    rfl 2 (by decide)

/-- C10: every series stream request whose id yields a non-numeric season
    or episode, or a season or episode below 1, returns the empty stream
    list immediately, with no title lookup, search, browser fetch, cache
    read or cache write performed. -/
theorem C10_invalid_series_id (id : String) (env : HandlerEnv)
    (hlen : 3 ≤ (jsSplit id ':').length)
    (hbad : (invalidSE (parseIntJS ((jsSplit id ':').getD ((jsSplit id ':').length - 2) ""))
      || invalidSE (parseIntJS ((jsSplit id ':').getD ((jsSplit id ':').length - 1) ""))) = true) :
    handleStreamRequest "series" id env = ([], []) := by
  rw [handleStreamRequest]
  simp only [hlen, hbad]
  simp

theorem C10_invalid_series_id_witness :
    3 ≤ (jsSplit "tt0417299:abc:5" ':').length ∧
    handleStreamRequest "series" "tt0417299:abc:5"
      { cached := some [7], title := some "Avatar", postUrl := some "p",
        multiUp := some "m", hosters := [(1, true)], hadInvalidHosters := false }
      = ([], []) :=
  ⟨by decide, C10_invalid_series_id _ _ (by decide) (by decide)⟩

theorem admStep_inv {s t : AdmState} (h : AdmStep s t)
    (h1 : s.count = s.tasks.count .holding) (h2 : s.count ≤ MAX_CONCURRENT_REQUESTS) :
    t.count = t.tasks.count .holding ∧ t.count ≤ MAX_CONCURRENT_REQUESTS := by
  cases h with
  | acquire rest ht hc =>
    rw [ht, Multiset.count_cons_of_ne (by decide)] at h1
    constructor
    · show s.count + 1 = (TaskPhase.holding ::ₘ rest).count .holding
      rw [Multiset.count_cons_self]
      omega
    · show s.count + 1 ≤ MAX_CONCURRENT_REQUESTS
      omega
  | poll rest ht hc => exact ⟨h1, h2⟩
  | release rest ht =>
    rw [ht, Multiset.count_cons_self] at h1
    constructor
    · show s.count - 1 = (TaskPhase.finished ::ₘ rest).count .holding
      rw [Multiset.count_cons_of_ne (by decide)]
      omega
    · show s.count - 1 ≤ MAX_CONCURRENT_REQUESTS
      omega

theorem admReachable_inv {k : Nat} {s : AdmState} (h : AdmReachable k s) :
    s.count = s.tasks.count .holding ∧ s.count ≤ MAX_CONCURRENT_REQUESTS := by
  induction h with
  | init =>
    constructor
    · show 0 = (Multiset.replicate k TaskPhase.waiting).count .holding
      rw [Multiset.count_replicate]
      simp
    · show (0 : Nat) ≤ MAX_CONCURRENT_REQUESTS
      decide
  | step _ hstep ih => exact admStep_inv hstep ih.1 ih.2

/-- C1: in every state reachable by any interleaving of any number of
    concurrent fetchPage callers, the number of admission slots held
    simultaneously (callers mid-navigation) never exceeds
    MAX_CONCURRENT_REQUESTS: acquisition is guarded by the counter check
    and only then increments. -/
theorem C1_admission_bound (k : Nat) (s : AdmState) (h : AdmReachable k s) :
    holdingCount s ≤ MAX_CONCURRENT_REQUESTS ∧ s.count ≤ MAX_CONCURRENT_REQUESTS := by
  have hinv := admReachable_inv h
  refine ⟨?_, hinv.2⟩
  rw [holdingCount, ← hinv.1]
  exact hinv.2

theorem C1_admission_bound_witness :
    holdingCount (admInit 3) ≤ MAX_CONCURRENT_REQUESTS ∧
    (admInit 3).count ≤ MAX_CONCURRENT_REQUESTS :=
  C1_admission_bound 3 (admInit 3) AdmReachable.init

theorem lookup_none_of_fresh {l : List (Nat × Option Nat)} {n : Nat}
    (h : ∀ pr ∈ l, pr.1 < n) : l.lookup n = none := by
  induction l with
  | nil => rfl
  | cons a t ih =>
    rcases a with ⟨k, v⟩
    have hk : k < n := h (k, v) (List.mem_cons_self _ _)
    have hne : (n == k) = false := beq_eq_false_iff_ne.mpr (by omega)
    simp only [List.lookup, hne]
    exact ih (fun pr hpr => h pr (List.mem_cons_of_mem _ hpr))

theorem launchTrue (p : Nat) :
    (fun t => isLaunching t = true) (GBPhase.launching p) := rfl

theorem countLaunch_cons_launching (p : Nat) (m : Multiset GBPhase) :
    Multiset.countP (fun t => isLaunching t = true) (GBPhase.launching p ::ₘ m)
      = Multiset.countP (fun t => isLaunching t = true) m + 1 := by
  rw [Multiset.countP_cons]
  simp [isLaunching]

theorem countLaunch_cons_entry (m : Multiset GBPhase) :
    Multiset.countP (fun t => isLaunching t = true) (GBPhase.entry ::ₘ m)
      = Multiset.countP (fun t => isLaunching t = true) m := by
  rw [Multiset.countP_cons]
  simp [isLaunching]

theorem countLaunch_cons_awaiting (p : Nat) (m : Multiset GBPhase) :
    Multiset.countP (fun t => isLaunching t = true) (GBPhase.awaiting p ::ₘ m)
      = Multiset.countP (fun t => isLaunching t = true) m := by
  rw [Multiset.countP_cons]
  simp [isLaunching]

theorem countLaunch_cons_done (r v : Option Nat) (m : Multiset GBPhase) :
    Multiset.countP (fun t => isLaunching t = true) (GBPhase.done r v ::ₘ m)
      = Multiset.countP (fun t => isLaunching t = true) m := by
  rw [Multiset.countP_cons]
  simp [isLaunching]

theorem gbStep_inv {s t : GBState} (hst : GBStep s t) (hinv : gbInv s) : gbInv t := by
  obtain ⟨hA, hB, hC, hD, hE⟩ := hinv
  cases hst with
  | fastPath rest b ht hb =>
    refine ⟨?_, ?_, ?_, hD, hE⟩
    · rw [launchingCount, ht, countLaunch_cons_entry] at hA
      show Multiset.countP (fun t => isLaunching t = true)
        (GBPhase.done (some b) none ::ₘ rest) ≤ 1
      rw [countLaunch_cons_done]
      exact hA
    · intro p hp
      rw [Multiset.mem_cons] at hp
      rcases hp with heq | hp
      · simp at heq
      · exact hB p (by rw [ht]; exact Multiset.mem_cons_of_mem hp)
    · intro r q hq
      rw [Multiset.mem_cons] at hq
      rcases hq with heq | hq
      · simp at heq
      · exact hC r q (by rw [ht]; exact Multiset.mem_cons_of_mem hq)
  | joinInit rest p ht hb hi hp =>
    refine ⟨?_, ?_, ?_, hD, hE⟩
    · rw [launchingCount, ht, countLaunch_cons_entry] at hA
      show Multiset.countP (fun t => isLaunching t = true) (GBPhase.awaiting p ::ₘ rest) ≤ 1
      rw [countLaunch_cons_awaiting]
      exact hA
    · intro q hq
      rw [Multiset.mem_cons] at hq
      rcases hq with heq | hq
      · simp at heq
      · exact hB q (by rw [ht]; exact Multiset.mem_cons_of_mem hq)
    · intro r q hq
      rw [Multiset.mem_cons] at hq
      rcases hq with heq | hq
      · simp at heq
      · exact hC r q (by rw [ht]; exact Multiset.mem_cons_of_mem hq)
  | beginInit rest ht hb hg =>
    have hrest : ∀ q, GBPhase.launching q ∈ rest → False := by
      intro q hq
      have hq2 := hB q (by rw [ht]; exact Multiset.mem_cons_of_mem hq)
      rcases hg with hg1 | hg2
      · rw [hq2.1] at hg1; cases hg1
      · rw [hq2.2.1] at hg2; cases hg2
    have hcz : Multiset.countP (fun t => isLaunching t = true) rest = 0 := by
      rw [Multiset.countP_eq_zero]
      intro a ha hla
      cases a with
      | entry => simp [isLaunching] at hla
      | awaiting q => simp [isLaunching] at hla
      | launching q => exact hrest q ha
      | done r v => simp [isLaunching] at hla
    refine ⟨?_, ?_, ?_, ?_, ?_⟩
    · show Multiset.countP (fun t => isLaunching t = true)
        (GBPhase.launching s.nextId ::ₘ rest) ≤ 1
      rw [countLaunch_cons_launching, hcz]
    · intro q hq
      rw [Multiset.mem_cons] at hq
      rcases hq with heq | hq
      · have hqid : q = s.nextId := by
          injection heq
        subst hqid
        exact ⟨rfl, rfl, lookup_none_of_fresh hD, hb⟩
      · exact absurd hq (fun hmem => hrest q hmem)
    · intro r q hq
      rw [Multiset.mem_cons] at hq
      rcases hq with heq | hq
      · simp at heq
      · exact hC r q (by rw [ht]; exact Multiset.mem_cons_of_mem hq)
    · intro pr hpr
      have := hD pr hpr
      show pr.1 < s.nextId + 1
      omega
    · intro q hq
      have hqid : q = s.nextId := by
        injection hq with h
        all_goals omega
      subst hqid
      show s.nextId < s.nextId + 1
      omega
  | launchOk rest p ht =>
    have hBp := hB p (by rw [ht]; exact Multiset.mem_cons_self _ _)
    have hcz : Multiset.countP (fun t => isLaunching t = true) rest = 0 := by
      rw [launchingCount, ht, countLaunch_cons_launching] at hA
      omega
    have hzero : ∀ q, GBPhase.launching q ∈ rest → False := by
      intro q hq
      exact (Multiset.countP_eq_zero.mp hcz _ hq) (launchTrue q)
    refine ⟨?_, ?_, ?_, ?_, ?_⟩
    · show Multiset.countP (fun t => isLaunching t = true)
        (GBPhase.done (some s.nextId) (some p) ::ₘ rest) ≤ 1
      rw [countLaunch_cons_done, hcz]
      omega
    · intro q hq
      rw [Multiset.mem_cons] at hq
      rcases hq with heq | hq
      · simp at heq
      · exact absurd hq (fun hmem => hzero q hmem)
    · intro r q hq
      rw [Multiset.mem_cons] at hq
      rcases hq with heq | hq
      · injection heq with h1 h2
        have hqp : q = p := by
          injection h2
        subst hqp
        subst h1
        show List.lookup q ((q, some s.nextId) :: s.resolved) = some (some s.nextId)
        simp [List.lookup]
      · have hold := hC r q (by rw [ht]; exact Multiset.mem_cons_of_mem hq)
        have hqp : q ≠ p := by
          intro e
          rw [e, hBp.2.2.1] at hold
          cases hold
        show List.lookup q ((p, some s.nextId) :: s.resolved) = some r
        have hne : (q == p) = false := beq_eq_false_iff_ne.mpr hqp
        simp only [List.lookup, hne]
        exact hold
    · intro pr hpr
      rw [List.mem_cons] at hpr
      rcases hpr with heq | hpr
      · subst heq
        have := hE p hBp.2.1
        show p < s.nextId + 1
        omega
      · have := hD pr hpr
        show pr.1 < s.nextId + 1
        omega
    · intro q hq
      have := hE q hq
      show q < s.nextId + 1
      omega
  | launchFail rest p ht =>
    have hBp := hB p (by rw [ht]; exact Multiset.mem_cons_self _ _)
    have hcz : Multiset.countP (fun t => isLaunching t = true) rest = 0 := by
      rw [launchingCount, ht, countLaunch_cons_launching] at hA
      omega
    have hzero : ∀ q, GBPhase.launching q ∈ rest → False := by
      intro q hq
      exact (Multiset.countP_eq_zero.mp hcz _ hq) (launchTrue q)
    refine ⟨?_, ?_, ?_, ?_, ?_⟩
    · show Multiset.countP (fun t => isLaunching t = true)
        (GBPhase.done none (some p) ::ₘ rest) ≤ 1
      rw [countLaunch_cons_done, hcz]
      omega
    · intro q hq
      rw [Multiset.mem_cons] at hq
      rcases hq with heq | hq
      · simp at heq
      · exact absurd hq (fun hmem => hzero q hmem)
    · intro r q hq
      rw [Multiset.mem_cons] at hq
      rcases hq with heq | hq
      · injection heq with h1 h2
        have hqp : q = p := by
          injection h2
        subst hqp
        subst h1
        show List.lookup q ((q, none) :: s.resolved) = some none
        simp [List.lookup]
      · have hold := hC r q (by rw [ht]; exact Multiset.mem_cons_of_mem hq)
        have hqp : q ≠ p := by
          intro e
          rw [e, hBp.2.2.1] at hold
          cases hold
        show List.lookup q ((p, none) :: s.resolved) = some r
        have hne : (q == p) = false := beq_eq_false_iff_ne.mpr hqp
        simp only [List.lookup, hne]
        exact hold
    · intro pr hpr
      rw [List.mem_cons] at hpr
      rcases hpr with heq | hpr
      · subst heq
        exact hE p hBp.2.1
      · exact hD pr hpr
    · intro q hq
      cases hq
  | awaitDone rest p r ht hr =>
    refine ⟨?_, ?_, ?_, hD, hE⟩
    · rw [launchingCount, ht, countLaunch_cons_awaiting] at hA
      show Multiset.countP (fun t => isLaunching t = true)
        (GBPhase.done r (some p) ::ₘ rest) ≤ 1
      rw [countLaunch_cons_done]
      exact hA
    · intro q hq
      rw [Multiset.mem_cons] at hq
      rcases hq with heq | hq
      · simp at heq
      · exact hB q (by rw [ht]; exact Multiset.mem_cons_of_mem hq)
    · intro r2 q hq
      rw [Multiset.mem_cons] at hq
      rcases hq with heq | hq
      · injection heq with h1 h2
        have hqp : q = p := by
          injection h2
        subst hqp
        subst h1
        exact hr
      · exact hC r2 q (by rw [ht]; exact Multiset.mem_cons_of_mem hq)
  | disconnect b hb =>
    refine ⟨hA, ?_, hC, hD, ?_⟩
    · intro q hq
      have := (hB q hq).2.2.2
      rw [this] at hb
      cases hb
    · intro q hq
      cases hq

theorem gbReachable_inv {k : Nat} {s : GBState} (h : GBReachable k s) : gbInv s := by
  induction h with
  | init =>
    refine ⟨?_, ?_, ?_, ?_, ?_⟩
    · show Multiset.countP (fun t => isLaunching t = true)
        (Multiset.replicate k GBPhase.entry) ≤ 1
      have hz : Multiset.countP (fun t => isLaunching t = true)
          (Multiset.replicate k GBPhase.entry) = 0 := by
        rw [Multiset.countP_eq_zero]
        intro a ha hla
        rw [Multiset.mem_replicate] at ha
        rw [ha.2] at hla
        simp [isLaunching] at hla
      omega
    · intro p hp
      replace hp : GBPhase.launching p ∈ Multiset.replicate k GBPhase.entry := hp
      rw [Multiset.mem_replicate] at hp
      simp at hp
    · intro r p hp
      replace hp : GBPhase.done r (some p) ∈ Multiset.replicate k GBPhase.entry := hp
      rw [Multiset.mem_replicate] at hp
      simp at hp
    · intro pr hpr
      cases hpr
    · intro p hp
      cases hp
  | step _ hstep ih => exact gbStep_inv hstep ih

/-- C3: browser initialization is serialized: in every reachable state of
    any number of concurrent getBrowser callers, at most one initialization
    runs (a caller arriving while one is in progress awaits the shared
    promise instead of launching), no initialization runs while a live
    browser exists, and any two callers whose results came from the same
    initialization promise observed the same browser. -/
theorem C3_init_serialized (k : Nat) (s : GBState) (h : GBReachable k s) :
    launchingCount s ≤ 1 ∧
    (∀ p, GBPhase.launching p ∈ s.tasks → s.browser = none) ∧
    (∀ r1 r2 p, GBPhase.done r1 (some p) ∈ s.tasks →
      GBPhase.done r2 (some p) ∈ s.tasks → r1 = r2) := by
  obtain ⟨hA, hB, hC, _, _⟩ := gbReachable_inv h
  refine ⟨hA, fun p hp => (hB p hp).2.2.2, fun r1 r2 p h1 h2 => ?_⟩
  have e1 := hC r1 p h1
  have e2 := hC r2 p h2
  rw [e1] at e2
  exact Option.some_inj.mp e2

theorem C3_init_serialized_witness :
    launchingCount (gbInit 3) ≤ 1 ∧
    (∀ p, GBPhase.launching p ∈ (gbInit 3).tasks → (gbInit 3).browser = none) ∧
    (∀ r1 r2 p, GBPhase.done r1 (some p) ∈ (gbInit 3).tasks →
      GBPhase.done r2 (some p) ∈ (gbInit 3).tasks → r1 = r2) :=
  C3_init_serialized 3 (gbInit 3) GBReachable.init

theorem sweep_step_activePages (BP : List Nat) (s : St) (a : Nat) :
    (sweepUntracked BP s a).activePages = s.activePages := by
  unfold sweepUntracked
  split
  · split <;> rfl
  · rfl

theorem sweep_activePages (BP l : List Nat) (s : St) :
    (l.foldl (sweepUntracked BP) s).activePages = s.activePages := by
  induction l generalizing s with
  | nil => rfl
  | cons a t ih =>
    show (t.foldl (sweepUntracked BP) (sweepUntracked BP s a)).activePages = _
    rw [ih, sweep_step_activePages]

theorem sweep_globalBrowser (BP l : List Nat) (s : St) :
    (l.foldl (sweepUntracked BP) s).globalBrowser
      = s.globalBrowser.map (fun b =>
          { b with pages := b.pages.filter (fun q =>
              !(l.contains q && !(s.activePages.contains q)
                && decide (0 < pageIndex BP q))) }) := by
  induction l generalizing s with
  | nil =>
    show s.globalBrowser = _
    rcases hg : s.globalBrowser with _ | b
    · rfl
    · simp [List.contains]
  | cons a t ih =>
    show (t.foldl (sweepUntracked BP) (sweepUntracked BP s a)).globalBrowser = _
    rw [ih, sweep_step_activePages]
    by_cases hcond : (!(s.activePages.contains a) && decide (0 < pageIndex BP a)) = true
    · by_cases hclosed : pageClosed s a = true
      · have hstep : sweepUntracked BP s a = s := by
          unfold sweepUntracked
          rw [if_pos hcond, if_pos hclosed]
        rw [hstep]
        rcases hg : s.globalBrowser with _ | b
        · rfl
        · have hna : a ∉ b.pages := by
            intro hmem
            have h1 : pageClosed s a = false := by
              simpa [pageClosed, hg] using hmem
            rw [h1] at hclosed
            exact absurd hclosed (by decide)
          have hfil : b.pages.filter (fun q =>
                !(t.contains q && !(s.activePages.contains q)
                  && decide (0 < pageIndex BP q)))
              = b.pages.filter (fun q =>
                !((a :: t).contains q && !(s.activePages.contains q)
                  && decide (0 < pageIndex BP q))) := by
            refine List.filter_congr ?_
            intro x hx
            have hxa : (x == a) = false := by
              cases hxa2 : (x == a)
              · rfl
              · exact absurd (eq_of_beq hxa2 ▸ hx) hna
            rw [contains_cons_eval, hxa]
            simp
          show Option.map _ (some b) = Option.map _ (some b)
          simp only [Option.map]
          rw [hfil]
      · have hclosed2 : pageClosed s a = false := by
          cases hcf : pageClosed s a
          · rfl
          · exact absurd hcf hclosed
        have hstep : sweepUntracked BP s a = closePageM s a := by
          unfold sweepUntracked
          rw [if_pos hcond, if_neg (by rw [hclosed2]; exact Bool.false_ne_true)]
        rw [hstep]
        rcases hg : s.globalBrowser with _ | b
        · simp [closePageM, hg]
        · have hstep2 : (closePageM s a).globalBrowser
              = some { b with pages := b.pages.filter (fun q => !(q == a)) } := by
            simp [closePageM, hg]
          have hfil : (b.pages.filter (fun q => !(q == a))).filter (fun q =>
                !(t.contains q && !(s.activePages.contains q)
                  && decide (0 < pageIndex BP q)))
              = b.pages.filter (fun q =>
                !((a :: t).contains q && !(s.activePages.contains q)
                  && decide (0 < pageIndex BP q))) := by
            rw [List.filter_filter]
            refine List.filter_congr ?_
            intro x hx
            rw [contains_cons_eval]
            cases hxa : (x == a)
            · simp [hxa]
            · have hx_eq : x = a := eq_of_beq hxa
              subst hx_eq
              have hA : s.activePages.contains x = false := by
                cases h : s.activePages.contains x
                · rfl
                · rw [h] at hcond; simp at hcond
              have hI : decide (0 < pageIndex BP x) = true := by
                cases h : decide (0 < pageIndex BP x)
                · rw [h] at hcond; simp at hcond
                · rfl
              have hA2 : x ∉ s.activePages := by
                intro hm
                rw [contains_eq_true hm] at hA
                exact absurd hA (by decide)
              simp [hxa, hA, hI, hA2]
          have hLHS : ((closePageM s a).globalBrowser).map (fun b =>
                { b with pages := b.pages.filter (fun q =>
                    !(t.contains q && !(s.activePages.contains q)
                      && decide (0 < pageIndex BP q))) })
              = some { b with pages :=
                  (b.pages.filter (fun q => !(q == a))).filter (fun q =>
                    !(t.contains q && !(s.activePages.contains q)
                      && decide (0 < pageIndex BP q))) } := by
            rw [hstep2]
            rfl
          rw [hLHS, hfil]
          rfl
    · have hcondf : (!(s.activePages.contains a) && decide (0 < pageIndex BP a)) = false := by
        cases hcf : (!(s.activePages.contains a) && decide (0 < pageIndex BP a))
        · rfl
        · exact absurd hcf hcond
      have hstep : sweepUntracked BP s a = s := by
        unfold sweepUntracked
        rw [if_neg (by rw [hcondf]; exact Bool.false_ne_true)]
      rw [hstep]
      rcases hg : s.globalBrowser with _ | b
      · rfl
      · have hfil : b.pages.filter (fun q =>
              !(t.contains q && !(s.activePages.contains q)
                && decide (0 < pageIndex BP q)))
            = b.pages.filter (fun q =>
              !((a :: t).contains q && !(s.activePages.contains q)
                && decide (0 < pageIndex BP q))) := by
          refine List.filter_congr ?_
          intro x hx
          rw [contains_cons_eval]
          cases hxa : (x == a)
          · simp [hxa]
          · have hx_eq : x = a := eq_of_beq hxa
            subst hx_eq
            cases hac : s.activePages.contains x <;>
              cases hip : decide (0 < pageIndex BP x) <;>
              simp_all
        show Option.map _ (some b) = Option.map _ (some b)
        simp only [Option.map]
        rw [hfil]

theorem filter_indexOf_zero (l : List Nat) (hnd : l.Nodup) :
    l.filter (fun q => decide (List.indexOf q l = 0)) = l.take 1 := by
  cases l with
  | nil => rfl
  | cons h rest =>
    have hnotin : h ∉ rest := (List.nodup_cons.mp hnd).1
    rw [List.filter_cons]
    rw [if_pos (by simp [List.indexOf_cons_self])]
    have hrest : rest.filter (fun q => decide (List.indexOf q (h :: rest) = 0)) = [] := by
      rw [List.filter_eq_nil_iff]
      intro x hxr
      have hxh : x ≠ h := fun e => hnotin (e ▸ hxr)
      simp [List.indexOf_cons_ne rest (Ne.symm hxh)]
    rw [hrest]
    rfl

theorem take_one_contains (l : List Nat) (x : Nat) (hx : x ∈ l) :
    (l.take 1).contains x = decide (List.indexOf x l = 0) := by
  cases l with
  | nil => cases hx
  | cons h rest =>
    show (h :: ([] : List Nat)).contains x = _
    cases hxh : (x == h)
    · have hne : x ≠ h := by
        intro e
        rw [e] at hxh
        simp at hxh
      rw [List.indexOf_cons_ne rest (Ne.symm hne)]
      rw [contains_cons_eval]
      simp [hxh]
    · have he : x = h := eq_of_beq hxh
      subst he
      rw [List.indexOf_cons_self]
      rw [contains_cons_eval]
      simp [hxh]

theorem take_one_contains_notmem (l : List Nat) (x : Nat) (hx : x ∉ l) :
    (l.take 1).contains x = false :=
  contains_eq_false (fun hmem => hx (List.take_subset 1 l hmem))

/-- C6 counterexample: a state whose browser holds its default page (id 0)
    and a live page 1 that is tracked (mid-fetch); the cleanup tick closes
    page 1 even though it is tracked and live, contradicting the claim that
    reconciliation never closes a tracked live page. -/
theorem C6_closes_tracked_live_counterexample :
    (cexCleanupSt.activePages.contains 1 = true) ∧
    pageClosed cexCleanupSt 1 = false ∧
    pageClosed (cleanupTick cexCleanupSt) 1 = true ∧
    (cleanupTick cexCleanupSt).activePages = [] := by
  decide

/-- C6 as amended: with a live connected browser whose page list has no
    duplicates, one reconciliation tick closes every live page except the
    first (index 0) — tracked mid-fetch pages included — and removes from
    tracking everything except (possibly) the first page: afterwards only
    the first page is open and the tracked set is the original one
    restricted to the first page. -/
theorem C6_cleanup_behavior (s : St) (b : Browser)
    (hb : s.globalBrowser = some b) (hc : b.connected = true) (hnd : b.pages.Nodup) :
    (cleanupTick s).globalBrowser = some { b with pages := b.pages.take 1 } ∧
    (cleanupTick s).activePages
      = s.activePages.filter (fun p => (b.pages.take 1).contains p) := by
  have hred : cleanupTick s
      = b.pages.foldl (sweepUntracked b.pages)
          (closeAllPages
            { s with activePages := s.activePages.filter (fun p => b.pages.contains p) }
            ((s.activePages.filter (fun p => b.pages.contains p)).filter
              (fun p => decide (0 < pageIndex b.pages p)))) := by
    unfold cleanupTick
    rw [hb]
    dsimp only
    rw [hc, if_neg (by decide)]
  have h2gb : (closeAllPages
        { s with activePages := s.activePages.filter (fun p => b.pages.contains p) }
        ((s.activePages.filter (fun p => b.pages.contains p)).filter
          (fun p => decide (0 < pageIndex b.pages p)))).globalBrowser
      = some { b with pages := b.pages.filter (fun q =>
          !(((s.activePages.filter (fun p => b.pages.contains p)).filter
              (fun p => decide (0 < pageIndex b.pages p))).contains q)) } := by
    rw [closeAllPages_globalBrowser]
    show (s.globalBrowser).map _ = _
    rw [hb]
    rfl
  have h2ap : (closeAllPages
        { s with activePages := s.activePages.filter (fun p => b.pages.contains p) }
        ((s.activePages.filter (fun p => b.pages.contains p)).filter
          (fun p => decide (0 < pageIndex b.pages p)))).activePages
      = (s.activePages.filter (fun p => b.pages.contains p)).filter (fun q =>
          !(((s.activePages.filter (fun p => b.pages.contains p)).filter
              (fun p => decide (0 < pageIndex b.pages p))).contains q)) := by
    rw [closeAllPages_activePages]
  constructor
  · rw [hred, sweep_globalBrowser, h2ap, h2gb]
    simp only [Option.map]
    have keyPages : (b.pages.filter (fun q =>
          !(((s.activePages.filter (fun p => b.pages.contains p)).filter
              (fun p => decide (0 < pageIndex b.pages p))).contains q))).filter (fun q =>
          !(b.pages.contains q
            && !(((s.activePages.filter (fun p => b.pages.contains p)).filter (fun q2 =>
                !(((s.activePages.filter (fun p => b.pages.contains p)).filter
                    (fun p => decide (0 < pageIndex b.pages p))).contains q2))).contains q)
            && decide (0 < pageIndex b.pages q)))
        = b.pages.take 1 := by
      rw [List.filter_filter]
      refine (List.filter_congr ?_).trans (filter_indexOf_zero b.pages hnd)
      intro x hxbp
      have hxc : b.pages.contains x = true := contains_eq_true hxbp
      by_cases hidx : 0 < pageIndex b.pages x
      · have hz : decide (List.indexOf x b.pages = 0) = false := by
          apply decide_eq_false
          intro h0
          unfold pageIndex at hidx
          omega
        have hdec : decide (0 < pageIndex b.pages x) = true := decide_eq_true hidx
        by_cases hK : x ∈ s.activePages.filter (fun p => b.pages.contains p)
        · have hTC : ((s.activePages.filter (fun p => b.pages.contains p)).filter
              (fun p => decide (0 < pageIndex b.pages p))).contains x = true :=
            contains_eq_true (List.mem_filter.mpr ⟨hK, hdec⟩)
          have hA2 : ((s.activePages.filter (fun p => b.pages.contains p)).filter (fun q2 =>
              !(((s.activePages.filter (fun p => b.pages.contains p)).filter
                  (fun p => decide (0 < pageIndex b.pages p))).contains q2))).contains x
              = false :=
            contains_eq_false (fun hm => by
              have h2 := (List.mem_filter.mp hm).2
              rw [hTC] at h2
              exact absurd h2 (by decide))
          simp only [hxc, hTC, hA2, hz, hdec, Bool.not_true, Bool.not_false, Bool.true_and, Bool.and_true, Bool.false_and, Bool.and_false, Bool.true_or, Bool.or_true, Bool.false_or, Bool.or_false]
        · have hTC : ((s.activePages.filter (fun p => b.pages.contains p)).filter
              (fun p => decide (0 < pageIndex b.pages p))).contains x = false :=
            contains_eq_false (fun hm => hK (List.mem_filter.mp hm).1)
          have hA2 : ((s.activePages.filter (fun p => b.pages.contains p)).filter (fun q2 =>
              !(((s.activePages.filter (fun p => b.pages.contains p)).filter
                  (fun p => decide (0 < pageIndex b.pages p))).contains q2))).contains x
              = false :=
            contains_eq_false (fun hm => hK (List.mem_filter.mp hm).1)
          simp only [hxc, hTC, hA2, hz, hdec, Bool.not_true, Bool.not_false, Bool.true_and, Bool.and_true, Bool.false_and, Bool.and_false, Bool.true_or, Bool.or_true, Bool.false_or, Bool.or_false]
      · have h0 : List.indexOf x b.pages = 0 := by
          unfold pageIndex at hidx
          omega
        have hdec : decide (0 < pageIndex b.pages x) = false := decide_eq_false hidx
        have hTC : ((s.activePages.filter (fun p => b.pages.contains p)).filter
            (fun p => decide (0 < pageIndex b.pages p))).contains x = false :=
          contains_eq_false (fun hm => by
            have h2 := (List.mem_filter.mp hm).2
            rw [hdec] at h2
            exact absurd h2 (by decide))
        have hz1 : decide (List.indexOf x b.pages = 0) = true := decide_eq_true h0
        simp only [hxc, hTC, hz1, hdec, Bool.not_true, Bool.not_false, Bool.true_and, Bool.and_true, Bool.false_and, Bool.and_false, Bool.true_or, Bool.or_true, Bool.false_or, Bool.or_false]
    rw [keyPages]
  · rw [hred, sweep_activePages, h2ap]
    rw [List.filter_filter]
    refine List.filter_congr ?_
    intro x hxA
    by_cases hxbp : x ∈ b.pages
    · have hxc : b.pages.contains x = true := contains_eq_true hxbp
      by_cases hidx : 0 < pageIndex b.pages x
      · have hdec : decide (0 < pageIndex b.pages x) = true := decide_eq_true hidx
        have hK : x ∈ s.activePages.filter (fun p => b.pages.contains p) :=
          List.mem_filter.mpr ⟨hxA, hxc⟩
        have hTC : ((s.activePages.filter (fun p => b.pages.contains p)).filter
            (fun p => decide (0 < pageIndex b.pages p))).contains x = true :=
          contains_eq_true (List.mem_filter.mpr ⟨hK, hdec⟩)
        have ht1 : (b.pages.take 1).contains x = false := by
          rw [take_one_contains b.pages x hxbp]
          apply decide_eq_false
          intro h0
          unfold pageIndex at hidx
          omega
        simp only [hxc, hTC, ht1, Bool.not_true, Bool.not_false, Bool.true_and, Bool.and_true, Bool.false_and, Bool.and_false, Bool.true_or, Bool.or_true, Bool.false_or, Bool.or_false]
      · have h0 : List.indexOf x b.pages = 0 := by
          unfold pageIndex at hidx
          omega
        have hdec : decide (0 < pageIndex b.pages x) = false := decide_eq_false hidx
        have hTC : ((s.activePages.filter (fun p => b.pages.contains p)).filter
            (fun p => decide (0 < pageIndex b.pages p))).contains x = false :=
          contains_eq_false (fun hm => by
            have h2 := (List.mem_filter.mp hm).2
            rw [hdec] at h2
            exact absurd h2 (by decide))
        have ht1 : (b.pages.take 1).contains x = true := by
          rw [take_one_contains b.pages x hxbp]
          simp [h0]
        simp only [hxc, hTC, ht1, Bool.not_true, Bool.not_false, Bool.true_and, Bool.and_true, Bool.false_and, Bool.and_false, Bool.true_or, Bool.or_true, Bool.false_or, Bool.or_false]
    · have hxc : b.pages.contains x = false := contains_eq_false hxbp
      have ht1 : (b.pages.take 1).contains x = false :=
        take_one_contains_notmem b.pages x hxbp
      simp only [hxc, ht1, Bool.not_true, Bool.not_false, Bool.true_and, Bool.and_true, Bool.false_and, Bool.and_false, Bool.true_or, Bool.or_true, Bool.false_or, Bool.or_false]

theorem C6_cleanup_behavior_witness :
    (cleanupTick cexCleanupSt).globalBrowser
      = some { bid := 9, connected := true, pages := [0, 1].take 1, headless := true } ∧
    (cleanupTick cexCleanupSt).activePages
      = cexCleanupSt.activePages.filter (fun p => (([0, 1] : List Nat).take 1).contains p) :=
  C6_cleanup_behavior cexCleanupSt
    { bid := 9, connected := true, pages := [0, 1], headless := true }
    rfl rfl (by decide)

end Streamzio
